import Mathlib

/-!
Verification of the bus-data XML extraction engine.

This file is a shallow embedding of the two extractor variants of the
repository:

* `bus_xml_extractor.py` (class `BusDataExtractor`): the "targeted path"
  extractor, which pre-qualifies tag names with the detected namespace and
  uses `findall`/`find` element-tree queries, holding its per-document
  indexes in mutable object attributes.
* `xml_to_csv_extractor.py` (class `XMLExtractor`): the "tag suffix scan"
  extractor, which walks every descendant node and matches tags by the
  local name after the last closing brace.

XML documents are modelled as a tree of elements (tag, attributes,
optional text, children), exactly at the abstraction level of Python's
`xml.etree.ElementTree`.  Python dictionaries are modelled as
insertion-ordered association lists (`upsert`/`alookup`), mutable object
state is threaded explicitly, and Python truthiness of strings/options is
made explicit where the source relies on it.  Percentages in the quality
analyzer are modelled in exact rational arithmetic with round-half-to-even
decimal rounding (the source computes them with Python `round(x, 2)`).
Digits are modelled as the ASCII digits matched by the source's regular
expressions on the data actually processed.
-/

/-! ## Small helpers: characters, strings, association lists -/

/-- The character with code 123, an opening curly brace. -/
def lbrace : Char := Char.ofNat 123

/-- The character with code 125, a closing curly brace. -/
def rbrace : Char := Char.ofNat 125

/-- Whitespace characters stripped by Python's `str.strip()` (ASCII part). -/
def isPySpace (c : Char) : Bool :=
  c = ' ' || c = '\t' || c = '\n' || c = '\r' || c = Char.ofNat 11 || c = Char.ofNat 12

/-- Python `str.strip()` on the character-list view of a string. -/
def pyStrip (s : String) : String :=
  String.mk (((s.toList.dropWhile isPySpace).reverse.dropWhile isPySpace).reverse)

/-- Decimal value of a digit list, as computed by Python `int` on a `\d+` group. -/
def digitsVal (ds : List Char) : Nat :=
  ds.foldl (fun a c => a * 10 + (c.toNat - 48)) 0

/-- Association-list lookup; models Python `dict` lookup / `in` tests. -/
def alookup {α : Type} : List (String × α) → String → Option α
  | [], _ => none
  | p :: rest, k => if p.1 = k then some p.2 else alookup rest k

/-- Association-list insert-or-update; models Python `dict` assignment,
which keeps the insertion position of an existing key. -/
def upsert {α : Type} (k : String) (v : α) : List (String × α) → List (String × α)
  | [] => [(k, v)]
  | p :: rest => if p.1 = k then (k, v) :: rest else p :: upsert k v rest

/-! ## The duration parser

Both variants decode ISO-8601-style durations through
`re.match(r'PT(?:(\d+)H)?(?:(\d+)M)?(?:(\d+)S)?', s)`.  `re.match`
anchors the pattern at the start of the string only; since all three
groups are optional the pattern matches exactly the strings that start
with `PT`.  Each optional group greedily consumes a maximal digit run
that must be followed by its terminator letter; on failure the group
is skipped without consuming input. -/

/-- Maximal digit prefix of a character list (the greedy `\d+`). -/
def takeDigits : List Char → List Char × List Char
  | [] => ([], [])
  | c :: cs =>
    if c.isDigit then
      let p := takeDigits cs
      (c :: p.1, p.2)
    else ([], c :: cs)

/-- One optional component `(?:(\d+)X)?` of the duration regex: greedily read
digits, require the terminator `term`, else match the empty alternative. -/
def matchComp (term : Char) (cs : List Char) : Option Nat × List Char :=
  let p := takeDigits cs
  if p.1 = [] then (none, cs)
  else
    match p.2 with
    | t :: rest => if t = term then (some (digitsVal p.1), rest) else (none, cs)
    | [] => (none, cs)

/-- The three optional components after the literal `PT`, with the value of an
absent group defaulting to 0 as in `int(match.group(i) or 0)`. -/
def ptCore (cs : List Char) : Nat × Nat × Nat :=
  let h := matchComp 'H' cs
  let m := matchComp 'M' h.2
  let s := matchComp 'S' m.2
  (h.1.getD 0, m.1.getD 0, s.1.getD 0)

/-- `re.match` of the duration pattern against a character list: `none` when
the pattern does not match a prefix, otherwise the three group values. -/
def reMatchPTList : List Char → Option (Nat × Nat × Nat)
  | a :: b :: rest => if a = 'P' ∧ b = 'T' then some (ptCore rest) else none
  | _ => none

/-- `re.match` of the duration pattern against a string. -/
def reMatchPT (s : String) : Option (Nat × Nat × Nat) :=
  reMatchPTList s.toList

/-- `BusDataExtractor.parse_duration`: the permissive variant, returning 0 for
null, empty, or non-matching input. -/
def parse_duration_bus (iso : Option String) : Nat :=
  match iso with
  | none => 0
  | some s =>
    if s = "" then 0
    else
      match reMatchPT s with
      | some (h, m, sec) => h * 3600 + m * 60 + sec
      | none => 0

/-- `XMLExtractor.parse_duration`: the strict variant, returning `none` for
null, empty, or non-matching input. -/
def parse_duration_xml (d : Option String) : Option Nat :=
  match d with
  | none => none
  | some s =>
    if s = "" then none
    else
      match reMatchPT s with
      | some (h, m, sec) => some (h * 3600 + m * 60 + sec)
      | none => none

/-! Specification-side description of a duration string: the whole string is
the literal `PT` followed by the optional hour, minute and second components
in that order, each a nonempty digit run followed by its letter. -/

/-- Rendering of one optional component: empty when absent, digits then the
terminator letter when present. -/
def blk (ds : List Char) (c : Char) : List Char :=
  if ds = [] then [] else ds ++ [c]

/-- A digit list `ds` encodes the component value `n`; an absent component
(empty list) encodes 0, matching `int(match.group(i) or 0)`. -/
def compOK (ds : List Char) (n : Nat) : Prop :=
  (ds = [] ∧ n = 0) ∨ (ds ≠ [] ∧ (∀ c ∈ ds, c.isDigit = true) ∧ digitsVal ds = n)

/-- The string `s` is exactly `PT` followed by the optional hour, minute and
second components encoding `h`, `m`, `sec`. -/
def SpecPTFull (s : String) (h m sec : Nat) : Prop :=
  ∃ dh dm ds : List Char,
    compOK dh h ∧ compOK dm m ∧ compOK ds sec ∧
    s.toList = 'P' :: 'T' :: (blk dh 'H' ++ blk dm 'M' ++ blk ds 'S')

/-! ## XML element trees

An element of `xml.etree.ElementTree`: a (possibly namespace-qualified)
tag, an attribute dictionary, optional text, and a list of child elements. -/

mutual
inductive Elem : Type where
  | mk : String → List (String × String) → Option String → Forest → Elem
deriving DecidableEq
inductive Forest : Type where
  | nil : Forest
  | cons : Elem → Forest → Forest
deriving DecidableEq
end

/-- Build a child forest from a list of elements. -/
def Forest.ofList : List Elem → Forest
  | [] => .nil
  | e :: rest => .cons e (Forest.ofList rest)

/-- The child forest as a list of elements. -/
def Forest.toList : Forest → List Elem
  | .nil => []
  | .cons e rest => e :: rest.toList

/-- Build an element from its tag, attributes, text and child list. -/
def elem (t : String) (a : List (String × String)) (x : Option String)
    (cs : List Elem) : Elem :=
  Elem.mk t a x (Forest.ofList cs)

/-- The element's tag, as stored by ElementTree (`\x7buri\x7dLocalName` when
namespace-qualified). -/
def Elem.tag : Elem → String
  | .mk t _ _ _ => t

/-- The element's attribute dictionary. -/
def Elem.attrs : Elem → List (String × String)
  | .mk _ a _ _ => a

/-- The element's text content (`None` or a string). -/
def Elem.text : Elem → Option String
  | .mk _ _ x _ => x

/-- The element's direct children, in document order. -/
def Elem.children : Elem → List Elem
  | .mk _ _ _ cs => cs.toList

mutual
/-- All proper descendants of an element in document (pre-)order. -/
def Elem.descendants : Elem → List Elem
  | .mk _ _ _ f => Forest.descList f
/-- All elements of a forest in document (pre-)order: each root followed by
its descendants. -/
def Forest.descList : Forest → List Elem
  | .nil => []
  | .cons e rest => e :: (Elem.descendants e ++ Forest.descList rest)
end

/-- `element.iter()`: the element itself followed by all descendants in
document order. -/
def iterAll (e : Elem) : List Elem := e :: e.descendants

/-- `root.findall('.//' + tag)`: all proper descendants with the given tag,
in document order. -/
def findall_desc (root : Elem) (t : String) : List Elem :=
  root.descendants.filter (fun e => e.tag = t)

/-- `element.find(tag)`: the first direct child with the given tag. -/
def findChild (e : Elem) (t : String) : Option Elem :=
  (e.children.filter (fun c => c.tag = t)).head?

/-- `element.find('.//' + tag)`: the first descendant with the given tag. -/
def findDesc (e : Elem) (t : String) : Option Elem :=
  (e.descendants.filter (fun c => c.tag = t)).head?

/-- `element.find('.//' + a + '/' + b)`: the first `b`-child of an
`a`-descendant. -/
def findDescChild (e : Elem) (a b : String) : Option Elem :=
  ((e.descendants.filter (fun c => c.tag = a)).flatMap
    (fun c => c.children.filter (fun d => d.tag = b))).head?

/-- `element.get(key, default)`: attribute lookup with a default. -/
def attrD (e : Elem) (k d : String) : String :=
  (alookup e.attrs k).getD d

/-- The text-extraction core shared by `safe_get_text` and `get_text`: a
missing element or falsy text gives the default `''`, otherwise the
stripped text. -/
def getTextOpt (e? : Option Elem) : String :=
  match e? with
  | none => ""
  | some e => pyStrip (e.text.getD "")

/-- `XMLExtractor.get_text(element)` on a present element. -/
def getTextD (e : Elem) : String := getTextOpt (some e)

/-- The local name of a tag: everything after the last closing brace, as in
`tag.split('\x7d')[-1]`. -/
def splitLastBrace : List Char → Option (List Char × List Char)
  | [] => none
  | c :: rest =>
    match splitLastBrace rest with
    | some (b, a) => some (c :: b, a)
    | none => if c = rbrace then some ([], rest) else none

/-- `tag.split('\x7d')[-1]`: the tag's local name in the suffix-scan variant. -/
def localName (t : String) : String :=
  match splitLastBrace t.toList with
  | some (_, a) => String.mk a
  | none => t

/-! ## The namespace resolver (`BusDataExtractor.find_namespace`) -/

/-- The URI captured by `re.match(r'\x5c\x7b(.+)\x5c\x7d', tag)`: the tag must
start with an opening brace, and the greedy group extends to the last
closing brace, which must leave a nonempty group. -/
def detectNs (root : Elem) : Option String :=
  match root.tag.toList with
  | c :: rest =>
    if c = lbrace then
      match splitLastBrace rest with
      | some (b, _) => if b = [] then none else some (String.mk b)
      | none => none
    else none
  | [] => none

/-- `find_namespace` as it updates `self.namespace`: the attribute is
overwritten only when the new root's tag is qualified; an unqualified root
leaves the previous value in place (the source has no else-branch reset). -/
def find_namespace_upd (ns : Option String) (root : Elem) : Option String :=
  match detectNs root with
  | some u => some u
  | none => ns

/-- `get_tag(name)`: qualify a tag with the current namespace, if any. -/
def get_tag (ns : Option String) (name : String) : String :=
  match ns with
  | some u => "\x7b" ++ u ++ "\x7d" ++ name
  | none => name

/-- `safe_get_text(element, tag)` for a direct-child path. -/
def safeChild (ns : Option String) (e : Elem) (name : String) : String :=
  getTextOpt (findChild e (get_tag ns name))

/-- `safe_get_text(element, './/' + tag)` for a descendant path. -/
def safeDesc (ns : Option String) (e : Elem) (name : String) : String :=
  getTextOpt (findDesc e (get_tag ns name))

/-- `safe_get_text(element, './/' + a + '/' + b)`. -/
def safeDescChild (ns : Option String) (e : Elem) (a b : String) : String :=
  getTextOpt (findDescChild e (get_tag ns a) (get_tag ns b))

/-! ## The targeted-path extractor (`BusDataExtractor`) -/

/-- A stop record of `extract_stops` (the per-document `stops_data` values). -/
structure StopRec where
  stop_id : String
  stop_name : String
  longitude : String
  latitude : String
deriving DecidableEq, Repr

/-- An operator record of `extract_operators`. -/
structure OperRec where
  operator_id : String
  national_code : String
  operator_code : String
  operator_name : String
  licence_number : String
deriving DecidableEq, Repr

/-- The per-document service record of `extract_services`. -/
structure ServiceRec where
  service_code : String
  line_name : String
  origin : String
  destination : String
  outbound_desc : String
  inbound_desc : String
  start_date : String
  end_date : String
  public_use : String
deriving DecidableEq, Repr

/-- A flat timing segment as built by `extract_timing_links`; field order and
names follow the source dictionary.  All fields are strings except
`runtime_seconds`, which `parse_duration` returns as a non-negative integer. -/
structure Segment where
  source_file : String
  section_id : String
  timing_link_id : String
  from_stop_id : String
  from_stop_name : String
  from_latitude : String
  from_longitude : String
  from_sequence : String
  from_timing_status : String
  from_activity : String
  to_stop_id : String
  to_stop_name : String
  to_latitude : String
  to_longitude : String
  to_sequence : String
  to_timing_status : String
  runtime_raw : String
  runtime_seconds : Nat
  route_link_ref : String
  line_name : String
  operator_name : String
  service_origin : String
  service_destination : String
  service_code : String
deriving DecidableEq, Repr

/-- `extract_stops`: index every `AnnotatedStopPointRef` descendant by its
`StopPointRef` child text, skipping stops whose id text is falsy. -/
def busStopStep (ns : Option String) (acc : List (String × StopRec))
    (stop : Elem) : List (String × StopRec) :=
  let sid := safeChild ns stop "StopPointRef"
  if sid ≠ "" then
    upsert sid
      { stop_id := sid
        stop_name := safeChild ns stop "CommonName"
        longitude := safeDesc ns stop "Longitude"
        latitude := safeDesc ns stop "Latitude" } acc
  else acc

/-- The loop of `extract_stops` over all `AnnotatedStopPointRef`
descendants. -/
def extract_stops_bus (ns : Option String) (root : Elem)
    (init : List (String × StopRec)) : List (String × StopRec) :=
  (findall_desc root (get_tag ns "AnnotatedStopPointRef")).foldl
    (busStopStep ns) init

/-- `extract_operators`: index every `Operator` descendant by its `id`
attribute, defaulting to the literal key `unknown`. -/
def extract_operators_bus (ns : Option String) (root : Elem)
    (init : List (String × OperRec)) : List (String × OperRec) :=
  (findall_desc root (get_tag ns "Operator")).foldl
    (fun acc oper =>
      upsert (attrD oper "id" "unknown")
        { operator_id := attrD oper "id" "unknown"
          national_code := safeChild ns oper "NationalOperatorCode"
          operator_code := safeChild ns oper "OperatorCode"
          operator_name := safeChild ns oper "OperatorShortName"
          licence_number := safeChild ns oper "LicenceNumber" } acc)
    init

/-- The service record built from one `Service` element. -/
def mkServiceBus (ns : Option String) (svc : Elem) : ServiceRec :=
  { service_code := safeChild ns svc "ServiceCode"
    line_name := safeDesc ns svc "LineName"
    origin := safeDesc ns svc "Origin"
    destination := safeDesc ns svc "Destination"
    outbound_desc := safeDescChild ns svc "OutboundDescription" "Description"
    inbound_desc := safeDescChild ns svc "InboundDescription" "Description"
    start_date := safeDesc ns svc "StartDate"
    end_date := safeDesc ns svc "EndDate"
    public_use := safeChild ns svc "PublicUse" }

/-- `extract_services`: the loop assigns `self.service_info` from the first
`Service` descendant and breaks; with no `Service` element the attribute is
left unchanged. -/
def extract_services_bus (ns : Option String) (root : Elem)
    (si : Option ServiceRec) : Option ServiceRec :=
  match (findall_desc root (get_tag ns "Service")).head? with
  | some svc => some (mkServiceBus ns svc)
  | none => si

/-- The `From` (or `To`) sub-element of a timing link. -/
def sideElem (ns : Option String) (link : Elem) (name : String) : Option Elem :=
  findChild link (get_tag ns name)

/-- `safe_get_text(side, StopPointRef) if side is not None else ''`. -/
def sideStop (ns : Option String) (e? : Option Elem) : String :=
  match e? with
  | none => ""
  | some e => safeChild ns e "StopPointRef"

/-- `side.get('SequenceNumber', '') if side is not None else ''`. -/
def sideSeq (e? : Option Elem) : String :=
  match e? with
  | none => ""
  | some e => attrD e "SequenceNumber" ""

/-- `safe_get_text(side, name) if side is not None else ''`. -/
def sideText (ns : Option String) (e? : Option Elem) (name : String) : String :=
  match e? with
  | none => ""
  | some e => safeChild ns e name

/-- One segment dictionary of `extract_timing_links`, for a timing link of a
section, joined against the per-document indexes. -/
def mkSegment (ns : Option String) (stops : List (String × StopRec))
    (svc : Option ServiceRec) (ops : List (String × OperRec))
    (source_file section_id : String) (link : Elem) : Segment :=
  let fe := sideElem ns link "From"
  let te := sideElem ns link "To"
  let from_stop := sideStop ns fe
  let to_stop := sideStop ns te
  let runtime_raw := safeChild ns link "RunTime"
  let finfo := alookup stops from_stop
  let tinfo := alookup stops to_stop
  { source_file := source_file
    section_id := section_id
    timing_link_id := attrD link "id" ""
    from_stop_id := from_stop
    from_stop_name := (finfo.map (fun r => r.stop_name)).getD ""
    from_latitude := (finfo.map (fun r => r.latitude)).getD ""
    from_longitude := (finfo.map (fun r => r.longitude)).getD ""
    from_sequence := sideSeq fe
    from_timing_status := sideText ns fe "TimingStatus"
    from_activity := sideText ns fe "Activity"
    to_stop_id := to_stop
    to_stop_name := (tinfo.map (fun r => r.stop_name)).getD ""
    to_latitude := (tinfo.map (fun r => r.latitude)).getD ""
    to_longitude := (tinfo.map (fun r => r.longitude)).getD ""
    to_sequence := sideSeq te
    to_timing_status := sideText ns te "TimingStatus"
    runtime_raw := runtime_raw
    runtime_seconds := parse_duration_bus (some runtime_raw)
    route_link_ref := safeChild ns link "RouteLinkRef"
    line_name := (svc.map (fun r => r.line_name)).getD ""
    operator_name := (ops.head?.map (fun p => p.2.operator_name)).getD ""
    service_origin := (svc.map (fun r => r.origin)).getD ""
    service_destination := (svc.map (fun r => r.destination)).getD ""
    service_code := (svc.map (fun r => r.service_code)).getD "" }

/-- The (section id, timing link) pairs visited by the nested loops of
`extract_timing_links`: every `JourneyPatternSection` descendant, and within
it every direct `JourneyPatternTimingLink` child. -/
def busLinks (ns : Option String) (root : Elem) : List (String × Elem) :=
  (findall_desc root (get_tag ns "JourneyPatternSection")).flatMap
    (fun sec =>
      (sec.children.filter
          (fun l => l.tag = get_tag ns "JourneyPatternTimingLink")).map
        (fun link => (attrD sec "id" "", link)))

/-- `extract_timing_links`: one segment per visited timing link, appended in
traversal order. -/
def extract_timing_links_bus (ns : Option String) (stops : List (String × StopRec))
    (svc : Option ServiceRec) (ops : List (String × OperRec))
    (root : Elem) (source_file : String) : List Segment :=
  (busLinks ns root).map (fun p => mkSegment ns stops svc ops source_file p.1 p.2)

/-- An input document of the batch: its file name, its parse outcome (`none`
when `ET.parse` raises), and the exception text in that case. -/
structure XmlFile where
  name : String
  parsed : Option Elem
  errMsg : String
deriving DecidableEq

/-- The per-document outcome dictionary of `process_single_file`. -/
structure ExtractionResult where
  filename : String
  stops_found : Nat
  operators_found : Nat
  services_found : Nat
  segments_found : Nat
  data : List Segment
  status : String
deriving DecidableEq, Repr

/-- The mutable extractor attributes threaded between documents:
`self.namespace` (called `nsUri` here, `namespace` being a Lean keyword),
`self.stops_data`, `self.operator_info` and `self.service_info`. -/
structure BusState where
  nsUri : Option String
  stops_data : List (String × StopRec)
  operator_info : List (String × OperRec)
  service_info : Option ServiceRec

/-- The error outcome of `process_single_file`: zero counts, empty data and
the exception message, with the extractor state untouched (the exception
fires before the index resets). -/
def errResult (f : XmlFile) : ExtractionResult :=
  { filename := f.name
    stops_found := 0
    operators_found := 0
    services_found := 0
    segments_found := 0
    data := []
    status := "error: " ++ f.errMsg }

/-- `process_single_file`: parse, detect the namespace, reset the three
per-document indexes to empty, rebuild them, then extract timing links. -/
def process_single_file (st : BusState) (f : XmlFile) :
    BusState × ExtractionResult :=
  match f.parsed with
  | none => (st, errResult f)
  | some root =>
    let ns := find_namespace_upd st.nsUri root
    let stops := extract_stops_bus ns root []
    let ops := extract_operators_bus ns root []
    let svc := extract_services_bus ns root none
    let segs := extract_timing_links_bus ns stops svc ops root f.name
    (⟨ns, stops, ops, svc⟩,
      { filename := f.name
        stops_found := stops.length
        operators_found := ops.length
        services_found := if svc.isSome then 1 else 0
        segments_found := segs.length
        data := segs
        status := "success" })

/-- The batch loop of `process_all_files`, seen as the sequence of
per-document results with the extractor state threaded through. -/
def runBatch : BusState → List XmlFile → BusState × List ExtractionResult
  | st, [] => (st, [])
  | st, f :: fs =>
    let p := process_single_file st f
    let q := runBatch p.1 fs
    (q.1, p.2 :: q.2)

/-- The `summary_stats` dictionary of `process_all_files`. -/
structure Summary where
  total_files : Nat
  successful : Nat
  failed : Nat
  total_segments : Nat
  total_stops : Nat
deriving DecidableEq, Repr

/-- One iteration of the `process_all_files` loop: process the file, then
update the counters and the aggregate segment list according to the result
status. -/
def batchStep (acc : BusState × Summary × List Segment) (f : XmlFile) :
    BusState × Summary × List Segment :=
  let p := process_single_file acc.1 f
  let sum := acc.2.1
  if p.2.status = "success" then
    (p.1,
      { sum with
        successful := sum.successful + 1
        total_segments := sum.total_segments + p.2.segments_found
        total_stops := sum.total_stops + p.2.stops_found },
      acc.2.2 ++ p.2.data)
  else
    (p.1, { sum with failed := sum.failed + 1 }, acc.2.2)

/-- `process_all_files` over a given list of XML files: an empty folder
returns early with no summary; otherwise the loop accumulates the summary
and the aggregate segment list (assigned to `self.timing_segments`). -/
def process_all_files (st : BusState) (files : List XmlFile) :
    BusState × Option (Summary × List Segment) :=
  if files.isEmpty then (st, none)
  else
    let r := files.foldl batchStep
      (st, { total_files := files.length, successful := 0, failed := 0,
             total_segments := 0, total_stops := 0 }, [])
    (r.1, some (r.2.1, r.2.2))

/-! ## The quality analyzer (`calculate_data_quality`) -/

/-- The `key_fields` list of `calculate_data_quality`. -/
def key_fields : List String :=
  ["from_stop_id", "to_stop_id", "from_stop_name", "to_stop_name",
   "from_latitude", "from_longitude", "to_latitude", "to_longitude",
   "runtime_seconds", "line_name"]

/-- Python truthiness of `seg.get(field)` on a segment dictionary: a string
field is truthy when nonempty, the integer `runtime_seconds` when nonzero
(0 being the permissive parser's no-value sentinel), and a key that is not
in the dictionary gives `None`, which is falsy. -/
def fieldTruthy (s : Segment) : String → Bool
  | "source_file" => s.source_file ≠ ""
  | "section_id" => s.section_id ≠ ""
  | "timing_link_id" => s.timing_link_id ≠ ""
  | "from_stop_id" => s.from_stop_id ≠ ""
  | "from_stop_name" => s.from_stop_name ≠ ""
  | "from_latitude" => s.from_latitude ≠ ""
  | "from_longitude" => s.from_longitude ≠ ""
  | "from_sequence" => s.from_sequence ≠ ""
  | "from_timing_status" => s.from_timing_status ≠ ""
  | "from_activity" => s.from_activity ≠ ""
  | "to_stop_id" => s.to_stop_id ≠ ""
  | "to_stop_name" => s.to_stop_name ≠ ""
  | "to_latitude" => s.to_latitude ≠ ""
  | "to_longitude" => s.to_longitude ≠ ""
  | "to_sequence" => s.to_sequence ≠ ""
  | "to_timing_status" => s.to_timing_status ≠ ""
  | "runtime_raw" => s.runtime_raw ≠ ""
  | "runtime_seconds" => s.runtime_seconds ≠ 0
  | "route_link_ref" => s.route_link_ref ≠ ""
  | "line_name" => s.line_name ≠ ""
  | "operator_name" => s.operator_name ≠ ""
  | "service_origin" => s.service_origin ≠ ""
  | "service_destination" => s.service_destination ≠ ""
  | "service_code" => s.service_code ≠ ""
  | _ => false

/-- Round-half-to-even of the exact fraction `a / b` (for `b > 0`), i.e.
Python's `round` on a non-negative value, in exact arithmetic. -/
def roundHalfEven (a b : Nat) : Nat :=
  let q := a / b
  let r := a % b
  if 2 * r < b then q
  else if b < 2 * r then q + 1
  else if q % 2 = 0 then q else q + 1

/-- `calculate_data_quality`: the empty segment list returns the empty
report; otherwise one `(populated, completeness)` entry per key field.
The source stores `round((populated / total) * 100, 2)`; the completeness
is recorded here exactly, in hundredths of a percent (the source's
two-decimal float equals this integer divided by 100), so a completeness
of 70.0 percent is the entry 7000. -/
def calculate_data_quality (segs : List Segment) : List (String × Nat × Nat) :=
  if segs.isEmpty then []
  else
    key_fields.map (fun field =>
      let populated := segs.countP (fun seg => fieldTruthy seg field)
      (field, populated, roundHalfEven (populated * 10000) segs.length))

/-! ## The tag-suffix-scan extractor (`XMLExtractor`) -/

/-- The value dictionary of `XMLExtractor.extract_stops`: keys are set only
when the corresponding child element is seen. -/
structure XStopData where
  stop_id : Option String
  stop_name : Option String
  locality : Option String
  latitude : Option String
  longitude : Option String
deriving DecidableEq, Repr

/-- The all-absent stop dictionary. -/
def xStopEmpty : XStopData :=
  { stop_id := none, stop_name := none, locality := none,
    latitude := none, longitude := none }

/-- The `Location` child loop of `extract_stops`. -/
def locStep (sd : XStopData) (lc : Elem) : XStopData :=
  let t := localName lc.tag
  if t = "Latitude" then { sd with latitude := some (getTextD lc) }
  else if t = "Longitude" then { sd with longitude := some (getTextD lc) }
  else sd

/-- The child loop of `extract_stops`, accumulating the `stop_id` variable
and the `stop_data` dictionary.  Both `StopPointRef` and `AtcoCode`
children overwrite the id unconditionally. -/
def xstopStep (acc : String × XStopData) (child : Elem) : String × XStopData :=
  let t := localName child.tag
  if t = "StopPointRef" ∨ t = "AtcoCode" then
    let sid := getTextD child
    (sid, { acc.2 with stop_id := some sid })
  else if t = "CommonName" then
    (acc.1, { acc.2 with stop_name := some (getTextD child) })
  else if t = "LocalityName" then
    (acc.1, { acc.2 with locality := some (getTextD child) })
  else if t = "Location" then
    (acc.1, child.children.foldl locStep acc.2)
  else acc

/-- `XMLExtractor.extract_stops`: scan every element, and index each
`StopPoint`/`AnnotatedStopPointRef` by the final value of its id variable,
skipping stops whose final id is falsy. -/
def xstopOuter (stops : List (String × XStopData)) (e : Elem) :
    List (String × XStopData) :=
  if localName e.tag = "StopPoint" ∨ localName e.tag = "AnnotatedStopPointRef" then
    let p := e.children.foldl xstopStep ("", xStopEmpty)
    if p.1 ≠ "" then upsert p.1 p.2 stops else stops
  else stops

/-- The scan of `XMLExtractor.extract_stops` over every element. -/
def extract_stops_xml (root : Elem) : List (String × XStopData) :=
  (iterAll root).foldl xstopOuter []

/-- The `service_data` dictionary of `XMLExtractor.extract_services`. -/
structure XServiceData where
  line_name : Option String
  service_code : Option String
  service_origin : Option String
  service_destination : Option String
deriving DecidableEq, Repr

/-- The all-absent service dictionary. -/
def xSvcEmpty : XServiceData :=
  { line_name := none, service_code := none,
    service_origin := none, service_destination := none }

/-- One iteration of `extract_services`: `LineName` and `ServiceCode`
overwrite unconditionally; `Origin` and `Destination` are set only when not
yet present. -/
def svcStep (sd : XServiceData) (e : Elem) : XServiceData :=
  let t := localName e.tag
  if t = "LineName" then { sd with line_name := some (getTextD e) }
  else if t = "ServiceCode" then { sd with service_code := some (getTextD e) }
  else if t = "Origin" then
    (if sd.service_origin = none then { sd with service_origin := some (getTextD e) } else sd)
  else if t = "Destination" then
    (if sd.service_destination = none then { sd with service_destination := some (getTextD e) } else sd)
  else sd

/-- `XMLExtractor.extract_services`: fold the step over every element in
document order. -/
def extract_services_xml (root : Elem) : XServiceData :=
  (iterAll root).foldl svcStep xSvcEmpty

/-- `XMLExtractor.extract_operators`: the text of the first
`OperatorShortName`/`TradingName` element, if any. -/
def extract_operators_xml (root : Elem) : Option String :=
  ((iterAll root).find? (fun e =>
      localName e.tag = "OperatorShortName" || localName e.tag = "TradingName")).map getTextD

/-- A record dictionary of `extract_route_sections`: three keys always
present, every other key only once the corresponding element is seen.
`runtime_seconds` holds the strict parser's result, itself optional. -/
structure XRecord where
  source_file : String
  section_id : String
  timing_link_id : String
  from_stop_id : Option String
  from_stop_name : Option String
  from_latitude : Option String
  from_longitude : Option String
  from_sequence : Option String
  from_timing_status : Option String
  from_activity : Option String
  to_stop_id : Option String
  to_stop_name : Option String
  to_latitude : Option String
  to_longitude : Option String
  to_sequence : Option String
  to_timing_status : Option String
  to_activity : Option String
  runtime_raw : Option String
  runtime_seconds : Option (Option Nat)
  route_link_ref : Option String
  line_name : Option String
  operator_name : Option String
  service_origin : Option String
  service_destination : Option String
  service_code : Option String
deriving DecidableEq, Repr

/-- The record as first created for a timing link. -/
def initRecord (source_file section_id timing_link_id : String) : XRecord :=
  { source_file := source_file
    section_id := section_id
    timing_link_id := timing_link_id
    from_stop_id := none, from_stop_name := none, from_latitude := none
    from_longitude := none, from_sequence := none, from_timing_status := none
    from_activity := none
    to_stop_id := none, to_stop_name := none, to_latitude := none
    to_longitude := none, to_sequence := none, to_timing_status := none
    to_activity := none
    runtime_raw := none, runtime_seconds := none, route_link_ref := none
    line_name := none, operator_name := none, service_origin := none
    service_destination := none, service_code := none }

/-- `_extract_stop_point` on one child of a `From` (`isFrom`) or `To`
element: a `StopPointRef` child always overwrites the stop id, and
additionally denormalizes name and coordinates when the id is in the stop
index. -/
def espStep (stops : List (String × XStopData)) (isFrom : Bool)
    (r : XRecord) (c : Elem) : XRecord :=
  let t := localName c.tag
  if t = "StopPointRef" then
    let sid := getTextD c
    match alookup stops sid with
    | some sd =>
      if isFrom then
        { r with from_stop_id := some sid
                 from_stop_name := some (sd.stop_name.getD "")
                 from_latitude := some (sd.latitude.getD "")
                 from_longitude := some (sd.longitude.getD "") }
      else
        { r with to_stop_id := some sid
                 to_stop_name := some (sd.stop_name.getD "")
                 to_latitude := some (sd.latitude.getD "")
                 to_longitude := some (sd.longitude.getD "") }
    | none =>
      if isFrom then { r with from_stop_id := some sid }
      else { r with to_stop_id := some sid }
  else if t = "SequenceNumber" then
    if isFrom then { r with from_sequence := some (getTextD c) }
    else { r with to_sequence := some (getTextD c) }
  else if t = "TimingStatus" then
    if isFrom then { r with from_timing_status := some (getTextD c) }
    else { r with to_timing_status := some (getTextD c) }
  else if t = "Activity" then
    if isFrom then { r with from_activity := some (getTextD c) }
    else { r with to_activity := some (getTextD c) }
  else r

/-- The child loop of `extract_route_sections` over one timing link. -/
def linkStep (stops : List (String × XStopData)) (r : XRecord) (child : Elem) :
    XRecord :=
  let t := localName child.tag
  if t = "From" then child.children.foldl (espStep stops true) r
  else if t = "To" then child.children.foldl (espStep stops false) r
  else if t = "RunTime" then
    let raw := getTextD child
    { r with runtime_raw := some raw
             runtime_seconds := some (parse_duration_xml (some raw)) }
  else if t = "RouteLinkRef" then { r with route_link_ref := some (getTextD child) }
  else r

/-- The record built for one timing link of one section. -/
def buildLinkRecord (stops : List (String × XStopData)) (filename : String)
    (sec link : Elem) : XRecord :=
  link.children.foldl (linkStep stops)
    (initRecord filename (attrD sec "id" "") (attrD link "id" ""))

/-- Python truthiness of `record.get(key)` for an optional string value. -/
def truthyO (o : Option String) : Bool :=
  match o with
  | none => false
  | some s => s ≠ ""

/-- The timing-link iteration of `extract_route_sections`: build the
record, and append it only when it has a truthy from- or to-stop id. -/
def xlinkStep (stops : List (String × XStopData)) (filename : String)
    (sec : Elem) (recs : List XRecord) (link : Elem) : List XRecord :=
  if localName link.tag = "JourneyPatternTimingLink" then
    let r := buildLinkRecord stops filename sec link
    if truthyO r.from_stop_id || truthyO r.to_stop_id then recs ++ [r]
    else recs
  else recs

/-- The section iteration of `extract_route_sections`. -/
def xsecStep (stops : List (String × XStopData)) (filename : String)
    (records : List XRecord) (sec : Elem) : List XRecord :=
  if localName sec.tag = "JourneyPatternSection" then
    sec.children.foldl (xlinkStep stops filename sec) records
  else records

/-- `extract_route_sections`: the nested scan over sections and timing
links; a record is appended only when it has a truthy from- or to-stop id. -/
def extract_route_sections_xml (root : Elem) (stops : List (String × XStopData))
    (filename : String) : List XRecord :=
  (iterAll root).foldl (xsecStep stops filename) []

/-- The enrichment loop of `process_file`: stamp every record with the
service and operator data, defaulting absent values to the empty string. -/
def enrich (svc : XServiceData) (op : Option String) (r : XRecord) : XRecord :=
  { r with
    line_name := some (svc.line_name.getD "")
    operator_name := some (op.getD "")
    service_origin := some (svc.service_origin.getD "")
    service_destination := some (svc.service_destination.getD "")
    service_code := some (svc.service_code.getD "") }

/-- The accumulating attributes of `XMLExtractor` (the per-run aggregate;
the print-only `all_fields`/`field_counts` statistics are not modelled). -/
structure XState where
  all_records : List XRecord
  files_processed : Nat

/-- The enriched records one file contributes to `all_records`: empty when
parsing raises, otherwise the kept records of `extract_route_sections`
enriched with the service/operator data, all computed from local variables
of `process_file`. -/
def xml_file_records (f : XmlFile) : List XRecord :=
  match f.parsed with
  | none => []
  | some root =>
    let stops := extract_stops_xml root
    let svc := extract_services_xml root
    let op := extract_operators_xml root
    (extract_route_sections_xml root stops f.name).map (enrich svc op)

/-- `XMLExtractor.process_file`: on success extend `all_records` and bump
`files_processed`, returning the record count; on a parse error return 0
with the state untouched. -/
def process_file_xml (st : XState) (f : XmlFile) : XState × Nat :=
  match f.parsed with
  | none => (st, 0)
  | some _ =>
    let recs := xml_file_records f
    ({ all_records := st.all_records ++ recs
       files_processed := st.files_processed + 1 }, recs.length)

/-! ## Concrete test documents -/

/-- A leaf element with text. -/
def txt (t s : String) : Elem := elem t [] (some s) []

/-- A well-formed stop declaration for stop `S1`. -/
def wStop1 : Elem :=
  elem "AnnotatedStopPointRef" [] none
    [txt "StopPointRef" "S1", txt "CommonName" "Stop One",
     elem "Location" [] none [txt "Longitude" "-1.0", txt "Latitude" "51.0"]]

/-- A well-formed stop declaration for stop `S2`. -/
def wStop2 : Elem :=
  elem "AnnotatedStopPointRef" [] none
    [txt "StopPointRef" "S2", txt "CommonName" "Stop Two",
     elem "Location" [] none [txt "Longitude" "-1.01", txt "Latitude" "51.01"]]

/-- A well-formed operator declaration. -/
def wOper : Elem :=
  elem "Operator" [("id", "O1")] none [txt "OperatorShortName" "Diamond"]

/-- A well-formed service declaration. -/
def wService : Elem :=
  elem "Service" [] none
    [txt "ServiceCode" "SC1",
     elem "Lines" [] none [elem "Line" [("id", "L1")] none [txt "LineName" "DIAM14"]],
     elem "StandardService" [] none [txt "Origin" "A", txt "Destination" "B"]]

/-- A timing link from `S1` to `S2` taking `PT1M30S`. -/
def wLink : Elem :=
  elem "JourneyPatternTimingLink" [("id", "TL1")] none
    [elem "From" [("SequenceNumber", "1")] none
       [txt "Activity" "pickUp", txt "StopPointRef" "S1",
        txt "TimingStatus" "PTP", txt "SequenceNumber" "1"],
     elem "To" [("SequenceNumber", "2")] none
       [txt "StopPointRef" "S2", txt "TimingStatus" "PTP", txt "SequenceNumber" "2"],
     txt "RouteLinkRef" "RL1", txt "RunTime" "PT1M30S"]

/-- A well-formed unqualified document with two stops, an operator, a
service, and one timing link. -/
def wRoot : Elem :=
  elem "TransXChange" [] none
    [wStop1, wStop2, wOper, wService,
     elem "JourneyPatternSection" [("id", "JPS1")] none [wLink]]

/-- A parse-ok file around `wRoot`. -/
def wFile1 : XmlFile := ⟨"one.xml", some wRoot, ""⟩

/-- A malformed file: `ET.parse` raises. -/
def wBad : XmlFile := ⟨"two.xml", none, "no element found: line 1, column 0"⟩

/-- A second parse-ok file around `wRoot`. -/
def wFile3 : XmlFile := ⟨"three.xml", some wRoot, ""⟩

/-- The three-document batch of the batch-isolation scenario. -/
def wFiles : List XmlFile := [wFile1, wBad, wFile3]

/-- A fresh `BusDataExtractor` state (constructor attributes). -/
def st0 : BusState := ⟨none, [], [], none⟩

/-- A fresh `XMLExtractor` state. -/
def x0 : XState := ⟨[], 0⟩

/-- A namespace URI as found in TransXChange documents. -/
def nsURI : String := "http://www.transxchange.org.uk/"

/-- A document whose root tag is namespace-qualified. -/
def nsRoot : Elem := elem ("\x7b" ++ nsURI ++ "\x7d" ++ "TransXChange") [] none []

/-- A parse-ok file around the qualified document. -/
def nsFile : XmlFile := ⟨"ns.xml", some nsRoot, ""⟩

/-- A document whose root tag is unqualified, declaring one stop. -/
def plainRoot : Elem := elem "TransXChange" [] none [wStop1]

/-- A parse-ok file around the unqualified document. -/
def plainFile : XmlFile := ⟨"plain.xml", some plainRoot, ""⟩

/-- A stop with both a `StopPointRef` and an `AtcoCode` id source. -/
def dualIdRoot : Elem :=
  elem "StopPoints" [] none
    [elem "StopPoint" [] none
       [txt "StopPointRef" "S1", txt "AtcoCode" "A1", txt "CommonName" "Dual"]]

/-- A document whose single timing link has two `StopPointRef` children in
its `From` element: the first resolves in the stop index, the second does
not. -/
def staleJoinRoot : Elem :=
  elem "TransXChange" [] none
    [elem "AnnotatedStopPointRef" [] none
       [txt "StopPointRef" "S1", txt "CommonName" "Stop One"],
     elem "JourneyPatternSection" [("id", "sec")] none
       [elem "JourneyPatternTimingLink" [("id", "tl")] none
          [elem "From" [] none
             [txt "StopPointRef" "S1", txt "StopPointRef" "S2"]]]]

/-- A document with two `Service` elements; the first carries
`LineName` `A`, `ServiceCode` `C1`, `Origin` `O1`, `Destination` `D1`, the
second carries `LineName` `B`. -/
def twoServiceRoot : Elem :=
  elem "TransXChange" [] none
    [elem "Service" [] none
       [txt "LineName" "A", txt "ServiceCode" "C1",
        txt "Origin" "O1", txt "Destination" "D1"],
     elem "Service" [] none [txt "LineName" "B"]]

/-- A segment whose only populated field is `line_name` (when nonempty). -/
def segLN (ln : String) : Segment :=
  { source_file := "", section_id := "", timing_link_id := ""
    from_stop_id := "", from_stop_name := "", from_latitude := ""
    from_longitude := "", from_sequence := "", from_timing_status := ""
    from_activity := "", to_stop_id := "", to_stop_name := ""
    to_latitude := "", to_longitude := "", to_sequence := ""
    to_timing_status := "", runtime_raw := "", runtime_seconds := 0
    route_link_ref := "", line_name := ln, operator_name := ""
    service_origin := "", service_destination := "", service_code := "" }

/-- Ten segments with `line_name` populated in exactly seven. -/
def tenSegs : List Segment :=
  [segLN "L", segLN "L", segLN "L", segLN "", segLN "L",
   segLN "", segLN "L", segLN "L", segLN "", segLN "L"]

/-! ## Lemmas about the duration parser -/

/-- `takeDigits` consumes exactly a maximal digit run. -/
theorem takeDigits_append (ds t : List Char)
    (hds : ∀ c ∈ ds, c.isDigit = true)
    (ht : ∀ c, t.head? = some c → c.isDigit = false) :
    takeDigits (ds ++ t) = (ds, t) := by
  induction ds with
  | nil =>
    cases t with
    | nil => rfl
    | cons c cs =>
      have : c.isDigit = false := ht c rfl
      simp [takeDigits, this]
  | cons d ds ih =>
    have hd : d.isDigit = true := hds d (by simp)
    have ih' := ih (fun c hc => hds c (by simp [hc]))
    simp [takeDigits, hd, ih']

/-- `matchComp` succeeds on a nonempty digit run followed by its
terminator. -/
theorem matchComp_hit (term : Char) (ds rest : List Char)
    (hne : ds ≠ []) (hds : ∀ c ∈ ds, c.isDigit = true)
    (hterm : term.isDigit = false) :
    matchComp term (ds ++ term :: rest) = (some (digitsVal ds), rest) := by
  have h1 : takeDigits (ds ++ term :: rest) = (ds, term :: rest) :=
    takeDigits_append ds (term :: rest) hds
      (fun c hc => by simp at hc; rw [← hc]; exact hterm)
  simp [matchComp, h1, hne]

/-- `matchComp` fails without consuming input when there is no leading
digit. -/
theorem matchComp_miss (term : Char) (cs : List Char)
    (h : ∀ c, cs.head? = some c → c.isDigit = false) :
    matchComp term cs = (none, cs) := by
  have h1 : takeDigits cs = ([], cs) := takeDigits_append [] cs (by simp) h
  simp [matchComp, h1]

/-- `matchComp` fails without consuming input when the digit run is
followed by the wrong terminator. -/
theorem matchComp_wrongterm (term : Char) (ds : List Char) (c : Char)
    (rest : List Char) (hne : ds ≠ []) (hds : ∀ x ∈ ds, x.isDigit = true)
    (hc : c.isDigit = false) (hct : c ≠ term) :
    matchComp term (ds ++ c :: rest) = (none, ds ++ c :: rest) := by
  have h1 : takeDigits (ds ++ c :: rest) = (ds, c :: rest) :=
    takeDigits_append ds (c :: rest) hds
      (fun x hx => by simp at hx; rw [← hx]; exact hc)
  simp [matchComp, h1, hne, hct]

/-- The regex core computes each block's value on a full three-block
rendering. -/
theorem ptCore_blocks (dh dm ds : List Char)
    (hdh : ∀ c ∈ dh, c.isDigit = true)
    (hdm : ∀ c ∈ dm, c.isDigit = true)
    (hds : ∀ c ∈ ds, c.isDigit = true) :
    ptCore (blk dh 'H' ++ (blk dm 'M' ++ blk ds 'S')) =
      (digitsVal dh, digitsVal dm, digitsVal ds) := by
  have hH : ('H' : Char).isDigit = false := by decide
  have hM : ('M' : Char).isDigit = false := by decide
  have hS : ('S' : Char).isDigit = false := by decide
  by_cases h1 : dh = [] <;> by_cases h2 : dm = [] <;> by_cases h3 : ds = []
  · subst h1; subst h2; subst h3
    simp [blk, ptCore, matchComp_miss, digitsVal]
  · subst h1; subst h2
    have e1 : matchComp 'H' (ds ++ 'S' :: []) = (none, ds ++ 'S' :: []) :=
      matchComp_wrongterm 'H' ds 'S' [] h3 hds hS (by decide)
    have e2 : matchComp 'M' (ds ++ 'S' :: []) = (none, ds ++ 'S' :: []) :=
      matchComp_wrongterm 'M' ds 'S' [] h3 hds hS (by decide)
    have e3 : matchComp 'S' (ds ++ 'S' :: []) = (some (digitsVal ds), []) :=
      matchComp_hit 'S' ds [] h3 hds hS
    simp [blk, h3, ptCore, e1, e2, e3, digitsVal]
  · subst h1; subst h3
    have e1 : matchComp 'H' (dm ++ 'M' :: []) = (none, dm ++ 'M' :: []) :=
      matchComp_wrongterm 'H' dm 'M' [] h2 hdm hM (by decide)
    have e2 : matchComp 'M' (dm ++ 'M' :: []) = (some (digitsVal dm), []) :=
      matchComp_hit 'M' dm [] h2 hdm hM
    simp [blk, h2, ptCore, e1, e2, matchComp_miss, digitsVal]
  · subst h1
    have e1 : matchComp 'H' (dm ++ 'M' :: (ds ++ 'S' :: [])) =
        (none, dm ++ 'M' :: (ds ++ 'S' :: [])) :=
      matchComp_wrongterm 'H' dm 'M' (ds ++ 'S' :: []) h2 hdm hM (by decide)
    have e2 : matchComp 'M' (dm ++ 'M' :: (ds ++ 'S' :: [])) =
        (some (digitsVal dm), ds ++ 'S' :: []) :=
      matchComp_hit 'M' dm (ds ++ 'S' :: []) h2 hdm hM
    have e3 : matchComp 'S' (ds ++ 'S' :: []) = (some (digitsVal ds), []) :=
      matchComp_hit 'S' ds [] h3 hds hS
    simp [blk, h2, h3, ptCore, e1, e2, e3, digitsVal]
  · subst h2; subst h3
    have e1 : matchComp 'H' (dh ++ 'H' :: []) = (some (digitsVal dh), []) :=
      matchComp_hit 'H' dh [] h1 hdh hH
    simp [blk, h1, ptCore, e1, matchComp_miss, digitsVal]
  · subst h2
    have e1 : matchComp 'H' (dh ++ 'H' :: (ds ++ 'S' :: [])) =
        (some (digitsVal dh), ds ++ 'S' :: []) :=
      matchComp_hit 'H' dh (ds ++ 'S' :: []) h1 hdh hH
    have e2 : matchComp 'M' (ds ++ 'S' :: []) = (none, ds ++ 'S' :: []) :=
      matchComp_wrongterm 'M' ds 'S' [] h3 hds hS (by decide)
    have e3 : matchComp 'S' (ds ++ 'S' :: []) = (some (digitsVal ds), []) :=
      matchComp_hit 'S' ds [] h3 hds hS
    simp [blk, h1, h3, ptCore, e1, e2, e3, digitsVal]
  · subst h3
    have e1 : matchComp 'H' (dh ++ 'H' :: (dm ++ 'M' :: [])) =
        (some (digitsVal dh), dm ++ 'M' :: []) :=
      matchComp_hit 'H' dh (dm ++ 'M' :: []) h1 hdh hH
    have e2 : matchComp 'M' (dm ++ 'M' :: []) = (some (digitsVal dm), []) :=
      matchComp_hit 'M' dm [] h2 hdm hM
    simp [blk, h1, h2, ptCore, e1, e2, matchComp_miss, digitsVal]
  · have e1 : matchComp 'H' (dh ++ 'H' :: (dm ++ 'M' :: (ds ++ 'S' :: []))) =
        (some (digitsVal dh), dm ++ 'M' :: (ds ++ 'S' :: [])) :=
      matchComp_hit 'H' dh (dm ++ 'M' :: (ds ++ 'S' :: [])) h1 hdh hH
    have e2 : matchComp 'M' (dm ++ 'M' :: (ds ++ 'S' :: [])) =
        (some (digitsVal dm), ds ++ 'S' :: []) :=
      matchComp_hit 'M' dm (ds ++ 'S' :: []) h2 hdm hM
    have e3 : matchComp 'S' (ds ++ 'S' :: []) = (some (digitsVal ds), []) :=
      matchComp_hit 'S' ds [] h3 hds hS
    simp [blk, h1, h2, h3, ptCore, e1, e2, e3]

/-- A full-format duration string is matched by the regex with exactly the
encoded group values. -/
theorem reMatchPT_of_spec (s : String) (h m sec : Nat)
    (hs : SpecPTFull s h m sec) : reMatchPT s = some (h, m, sec) := by
  obtain ⟨dh, dm, ds, ch, cm, cs', hl⟩ := hs
  have vdh : digitsVal dh = h := by
    rcases ch with ⟨h1, h2⟩ | ⟨_, _, h3⟩
    · subst h1; subst h2; rfl
    · exact h3
  have vdm : digitsVal dm = m := by
    rcases cm with ⟨h1, h2⟩ | ⟨_, _, h3⟩
    · subst h1; subst h2; rfl
    · exact h3
  have vds : digitsVal ds = sec := by
    rcases cs' with ⟨h1, h2⟩ | ⟨_, _, h3⟩
    · subst h1; subst h2; rfl
    · exact h3
  have ddh : ∀ c ∈ dh, c.isDigit = true := by
    rcases ch with ⟨h1, _⟩ | ⟨_, h2, _⟩
    · subst h1; simp
    · exact h2
  have ddm : ∀ c ∈ dm, c.isDigit = true := by
    rcases cm with ⟨h1, _⟩ | ⟨_, h2, _⟩
    · subst h1; simp
    · exact h2
  have dds : ∀ c ∈ ds, c.isDigit = true := by
    rcases cs' with ⟨h1, _⟩ | ⟨_, h2, _⟩
    · subst h1; simp
    · exact h2
  rw [reMatchPT, hl]
  simp [reMatchPTList, ptCore_blocks dh dm ds ddh ddm dds, vdh, vdm, vds]

/-- A string whose first two characters are not `PT` is rejected by the
regex. -/
theorem reMatchPT_none (s : String) (h : s.toList.take 2 ≠ ['P', 'T']) :
    reMatchPT s = none := by
  rw [reMatchPT]
  rcases hl : s.toList with _ | ⟨a, _ | ⟨b, rest⟩⟩
  · rfl
  · rfl
  · rw [hl] at h
    have hab : ¬(a = 'P' ∧ b = 'T') := by
      intro ⟨ha, hb⟩
      subst ha; subst hb
      simp at h
    simp [reMatchPTList, hab]

/-- A string that starts with a character is not the empty string. -/
theorem ne_empty_of_toList (s : String) (c : Char) (l : List Char)
    (hl : s.toList = c :: l) : s ≠ "" := by
  intro h
  rw [h] at hl
  simp at hl

/-- Claim C1.  The duration parser is total over arbitrary (also null)
input.  A string that is exactly `PT` followed by the optional integer
hour, minute and second components yields hours*3600 + minutes*60 +
seconds as a non-negative integer in both variants; `re.match` anchors
only at the start, so the non-matching strings are exactly those not
starting with `PT`, and those (as well as null and empty input) yield the
permissive variant's 0 and the strict variant's `none`; the spec's five
example values evaluate as stated.  Totality holds by construction: both
`parse_duration` variants are total functions of their input. -/
theorem C1_duration_total :
    (∀ (s : String) (h m sec : Nat), SpecPTFull s h m sec →
      parse_duration_bus (some s) = h * 3600 + m * 60 + sec ∧
      parse_duration_xml (some s) = some (h * 3600 + m * 60 + sec)) ∧
    (∀ s : String, s.toList.take 2 ≠ ['P', 'T'] →
      parse_duration_bus (some s) = 0 ∧ parse_duration_xml (some s) = none) ∧
    (parse_duration_bus none = 0 ∧ parse_duration_xml none = none) ∧
    (parse_duration_bus (some "PT1M30S") = 90 ∧
      parse_duration_xml (some "PT1M30S") = some 90) ∧
    (parse_duration_bus (some "PT2H") = 7200 ∧
      parse_duration_xml (some "PT2H") = some 7200) ∧
    (parse_duration_bus (some "PT45S") = 45 ∧
      parse_duration_xml (some "PT45S") = some 45) ∧
    (parse_duration_bus (some "") = 0 ∧ parse_duration_xml (some "") = none) ∧
    (parse_duration_bus (some "garbage") = 0 ∧
      parse_duration_xml (some "garbage") = none) := by
  refine ⟨?_, ?_, ⟨rfl, rfl⟩, by decide, by decide, by decide, by decide, by decide⟩
  · intro s h m sec hs
    have hm := reMatchPT_of_spec s h m sec hs
    obtain ⟨dh, dm, ds, _, _, _, hl⟩ := hs
    have hne : s ≠ "" := ne_empty_of_toList s 'P' _ hl
    constructor
    · simp [parse_duration_bus, hne, hm]
    · simp [parse_duration_xml, hne, hm]
  · intro s hs
    have hm := reMatchPT_none s hs
    by_cases hne : s = ""
    · subst hne
      exact ⟨rfl, rfl⟩
    · constructor
      · simp [parse_duration_bus, hne, hm]
      · simp [parse_duration_xml, hne, hm]

/-- Witness for C1: the spec-side format predicate holds of `PT2H` with
hours 2, and the theorem instantiates to the stated values there. -/
theorem C1_duration_total_witness :
    SpecPTFull "PT2H" 2 0 0 ∧ parse_duration_bus (some "PT2H") = 2 * 3600 + 0 * 60 + 0 ∧
      ("xx".toList.take 2 ≠ ['P', 'T'] ∧ parse_duration_xml (some "xx") = none) := by
  have hspec : SpecPTFull "PT2H" 2 0 0 :=
    ⟨['2'], [], [],
      Or.inr ⟨by decide, by decide, by decide⟩,
      Or.inl ⟨rfl, rfl⟩, Or.inl ⟨rfl, rfl⟩, by decide⟩
  exact ⟨hspec, (C1_duration_total.1 "PT2H" 2 0 0 hspec).1,
    by decide, (C1_duration_total.2.1 "xx" (by decide)).2⟩

/-! ## The namespace reset and index reset properties -/

/-- Claim C3.  The claim is right about the intent ("namespace context from
one document must never leak into another") but the code is wrong:
`find_namespace` is indeed re-run for every document, yet it only assigns
`self.namespace` when the new root's tag is qualified, so after a
qualified document an unqualified document is processed with the stale
URI instead of the empty context.  Concretely: processing `plainFile`
(unqualified root, one stop) from a fresh state finds 1 stop, but
processing it right after the qualified `nsFile` finds 0 stops, because
the retained namespace makes every tag lookup miss. -/
theorem C3_namespace_leak :
    detectNs plainRoot = none ∧
    find_namespace_upd (some nsURI) plainRoot = some nsURI ∧
    (process_single_file (process_single_file st0 nsFile).1 plainFile).1.nsUri = some nsURI ∧
    ((process_single_file (process_single_file st0 nsFile).1 plainFile).2).stops_found = 0 ∧
    ((process_single_file st0 plainFile).2).stops_found = 1 := by
  exact ⟨rfl, rfl, rfl, rfl, rfl⟩

/-- Claim C9.  The per-document reference indexes never leak between
documents: in the targeted-path extractor the result of
`process_single_file` is independent of the incoming `stops_data`,
`operator_info` and `service_info` attributes (they are reset to empty
before extraction), and in the tag-suffix-scan extractor the records a
file appends to `all_records` are a function of that file alone (its
stop/service/operator indexes are local variables of `process_file`). -/
theorem C9_index_reset :
    (∀ (ns : Option String) (sd sd' : List (String × StopRec))
        (oi oi' : List (String × OperRec)) (si si' : Option ServiceRec)
        (f : XmlFile),
      (process_single_file ⟨ns, sd, oi, si⟩ f).2 =
        (process_single_file ⟨ns, sd', oi', si'⟩ f).2) ∧
    (∀ (st : XState) (f : XmlFile),
      (process_file_xml st f).1.all_records =
        st.all_records ++ xml_file_records f) := by
  constructor
  · intro ns sd sd' oi oi' si si' f
    cases hp : f.parsed <;> simp [process_single_file, hp]
  · intro st f
    cases hp : f.parsed <;> simp [process_file_xml, xml_file_records, hp]

/-! ## The batch orchestrator -/

/-- The batch produces exactly one result per input file. -/
theorem runBatch_length (st : BusState) (files : List XmlFile) :
    (runBatch st files).2.length = files.length := by
  induction files generalizing st with
  | nil => rfl
  | cons f fs ih => simp [runBatch, ih]

/-- The incremental summary/aggregate fold of `process_all_files`, described
over the result sequence of the batch. -/
theorem batch_fold (files : List XmlFile) :
    ∀ (st : BusState) (sum : Summary) (all : List Segment),
      files.foldl batchStep (st, sum, all) =
        ((runBatch st files).1,
         { total_files := sum.total_files
           successful := sum.successful +
             ((runBatch st files).2.filter (fun r => r.status == "success")).length
           failed := sum.failed +
             ((runBatch st files).2.filter (fun r => !(r.status == "success"))).length
           total_segments := sum.total_segments +
             (((runBatch st files).2.filter (fun r => r.status == "success")).map
               (fun r => r.segments_found)).sum
           total_stops := sum.total_stops +
             (((runBatch st files).2.filter (fun r => r.status == "success")).map
               (fun r => r.stops_found)).sum },
         all ++ ((runBatch st files).2.filter (fun r => r.status == "success")).flatMap
           (fun r => r.data)) := by
  induction files with
  | nil => intro st sum all; cases sum; simp [runBatch]
  | cons f fs ih =>
    intro st sum all
    by_cases h : (process_single_file st f).2.status = "success"
    · have hstep : batchStep (st, sum, all) f =
          ((process_single_file st f).1,
           { sum with
             successful := sum.successful + 1
             total_segments := sum.total_segments + (process_single_file st f).2.segments_found
             total_stops := sum.total_stops + (process_single_file st f).2.stops_found },
           all ++ (process_single_file st f).2.data) := by
        simp [batchStep, h]
      rw [List.foldl_cons, hstep, ih]
      cases sum
      simp [runBatch, List.filter_cons, h, Summary.mk.injEq, List.append_assoc]
      constructor
      · omega
      · constructor
        · omega
        · omega
    · have hstep : batchStep (st, sum, all) f =
          ((process_single_file st f).1, { sum with failed := sum.failed + 1 }, all) := by
        simp [batchStep, h]
      rw [List.foldl_cons, hstep, ih]
      cases sum
      simp [runBatch, List.filter_cons, h, Summary.mk.injEq]
      omega

/-- `process_all_files` on a nonempty batch, in closed form. -/
theorem process_all_nonempty (st : BusState) (files : List XmlFile)
    (h : files.isEmpty = false) :
    (process_all_files st files).2 = some
      ({ total_files := files.length
         successful := ((runBatch st files).2.filter (fun r => r.status == "success")).length
         failed := ((runBatch st files).2.filter (fun r => !(r.status == "success"))).length
         total_segments := (((runBatch st files).2.filter (fun r => r.status == "success")).map
           (fun r => r.segments_found)).sum
         total_stops := (((runBatch st files).2.filter (fun r => r.status == "success")).map
           (fun r => r.stops_found)).sum },
       ((runBatch st files).2.filter (fun r => r.status == "success")).flatMap
         (fun r => r.data)) := by
  simp [process_all_files, h, batch_fold files st _ []]

/-- Every result in a batch records `segments_found` as its data length. -/
theorem runBatch_counts (files : List XmlFile) :
    ∀ st, ∀ r ∈ (runBatch st files).2, r.segments_found = r.data.length := by
  induction files with
  | nil => intro st r hr; simp [runBatch] at hr
  | cons f fs ih =>
    intro st r hr
    simp only [runBatch, List.mem_cons] at hr
    rcases hr with rfl | hr
    · cases hp : f.parsed <;> simp [process_single_file, hp, errResult]
    · exact ih _ r hr

/-- Splitting a list by a Boolean predicate preserves the total length. -/
theorem filter_length_split {α : Type} (l : List α) (p : α → Bool) :
    (l.filter p).length + (l.filter (fun x => !(p x))).length = l.length := by
  induction l with
  | nil => rfl
  | cons a l ih =>
    by_cases h : p a <;> simp [List.filter_cons, h, ← ih] <;> omega

/-- Summing a per-element count equals the flattened length when the count
agrees with each element's list. -/
theorem sum_map_eq_length_flatMap {α β : Type} (l : List α) (g : α → Nat)
    (d : α → List β) (h : ∀ x ∈ l, g x = (d x).length) :
    (l.map g).sum = (l.flatMap d).length := by
  induction l with
  | nil => rfl
  | cons a l ih =>
    simp only [List.map_cons, List.sum_cons, List.flatMap_cons, List.length_append]
    rw [h a (by simp), ih (fun x hx => h x (by simp [hx]))]

/-- Claim C2.  Each document is processed independently: the batch yields
exactly one result per file; a file whose parse raises yields the error
result (message captured in the status, zero counts, empty segment list)
while every parse-ok file yields a success result, so a malformed document
never aborts the batch; and the aggregate segment list of
`process_all_files` is the concatenation, in file order, of the data of
the successful results only. -/
theorem C2_batch_isolation (st : BusState) (files : List XmlFile) :
    ((runBatch st files).2.length = files.length) ∧
    (∀ p ∈ files.zip (runBatch st files).2,
      (p.1.parsed = none → p.2 = errResult p.1) ∧
      (p.1.parsed ≠ none → p.2.status = "success")) ∧
    (files ≠ [] → ∃ sum segs, (process_all_files st files).2 = some (sum, segs) ∧
      segs = ((runBatch st files).2.filter
        (fun r => r.status == "success")).flatMap (fun r => r.data)) := by
  refine ⟨runBatch_length st files, ?_, ?_⟩
  · induction files generalizing st with
    | nil => simp
    | cons f fs ih =>
      intro p hp
      simp only [runBatch, List.zip_cons_cons, List.mem_cons] at hp
      rcases hp with rfl | hp
      · constructor
        · intro hn
          have hn' : f.parsed = none := hn
          simp [process_single_file, hn']
        · intro hn
          have hn' : f.parsed ≠ none := hn
          rcases hs : f.parsed with _ | root
          · exact absurd hs hn'
          · show (process_single_file st f).2.status = "success"
            simp [process_single_file, hs]
      · exact ih _ p hp
  · intro hne
    have hfe : files.isEmpty = false := by
      cases files with
      | nil => exact absurd rfl hne
      | cons a l => rfl
    exact ⟨_, _, process_all_nonempty st files hfe, rfl⟩

/-- Witness for C2: on the three-document batch `wFiles`, whose second
document is malformed, the batch reports successful = 2, failed = 1, the
malformed document's result is the error result, and the aggregate is the
concatenation of the successful documents' segments (2 segments: one from
document 1 and one from document 3, in that order). -/
theorem C2_batch_isolation_witness :
    (∃ sum segs, (process_all_files st0 wFiles).2 = some (sum, segs) ∧
      segs = ((runBatch st0 wFiles).2.filter
        (fun r => r.status == "success")).flatMap (fun r => r.data)) ∧
    ((runBatch st0 wFiles).2.map (fun r => r.status) =
      ["success", "error: no element found: line 1, column 0", "success"]) ∧
    ((process_all_files st0 wFiles).2.map (fun p => (p.1.successful, p.1.failed)) =
      some (2, 1)) ∧
    ((process_all_files st0 wFiles).2.map (fun p => p.2.map (fun s => s.source_file)) =
      some ["one.xml", "three.xml"]) := by
  refine ⟨(C2_batch_isolation st0 wFiles).2.2 (by decide), rfl, rfl, rfl⟩

/-- Claim C10.  After `process_all_files` completes on any batch that
produces summary statistics (a nonempty file list; an empty folder returns
early with no summary), the summary satisfies: total_files is the number
of files, successful + failed = total_files, total_segments is the sum of
`segments_found` over the successful results and also the length of the
aggregated segment list, total_stops is the sum of `stops_found` over the
successful results, and the aggregate contains the successful documents'
data only — failed documents contribute nothing. -/
theorem C10_summary_invariants (st : BusState) (files : List XmlFile)
    (hne : files ≠ []) :
    ∃ sum segs, (process_all_files st files).2 = some (sum, segs) ∧
      sum.total_files = files.length ∧
      sum.successful + sum.failed = sum.total_files ∧
      sum.total_segments = (((runBatch st files).2.filter
        (fun r => r.status == "success")).map (fun r => r.segments_found)).sum ∧
      sum.total_segments = segs.length ∧
      sum.total_stops = (((runBatch st files).2.filter
        (fun r => r.status == "success")).map (fun r => r.stops_found)).sum ∧
      segs = ((runBatch st files).2.filter
        (fun r => r.status == "success")).flatMap (fun r => r.data) := by
  have hfe : files.isEmpty = false := by
    cases files with
    | nil => exact absurd rfl hne
    | cons a l => rfl
  refine ⟨_, _, process_all_nonempty st files hfe, rfl, ?_, rfl, ?_, rfl, rfl⟩
  · rw [filter_length_split ((runBatch st files).2) (fun r => r.status == "success"),
      runBatch_length]
  · exact sum_map_eq_length_flatMap _ _ _
      (fun r hr => runBatch_counts files st r (List.mem_of_mem_filter hr))

/-- Witness for C10: the invariants instantiated on the three-document
batch, with the concrete values total_files = 3, successful + failed =
2 + 1 = 3, total_segments = 2 = aggregate length, total_stops = 4. -/
theorem C10_summary_invariants_witness :
    (∃ sum segs, (process_all_files st0 wFiles).2 = some (sum, segs) ∧
      sum.total_files = wFiles.length ∧
      sum.successful + sum.failed = sum.total_files ∧
      sum.total_segments = segs.length) ∧
    ((process_all_files st0 wFiles).2.map
      (fun p => (p.1.total_files, p.1.successful, p.1.failed,
        p.1.total_segments, p.1.total_stops)) = some (3, 2, 1, 2, 4)) := by
  obtain ⟨sum, segs, h1, h2, h3, _, h5, _⟩ :=
    C10_summary_invariants st0 wFiles (List.cons_ne_nil _ _)
  exact ⟨⟨sum, segs, h1, h2, h3, h5⟩, rfl⟩

/-! ## Membership characterization of the tag-suffix-scan segment emission -/

/-- A guarded-append fold produces the filtered map of its input. -/
theorem foldl_guard_append {α β : Type} (l : List α) (p : α → Bool) (f : α → β) :
    ∀ acc : List β,
      l.foldl (fun acc x => if p x then acc ++ [f x] else acc) acc =
        acc ++ (l.filter p).map f := by
  induction l with
  | nil => intro acc; simp
  | cons a l ih =>
    intro acc
    by_cases h : p a <;> simp [List.filter_cons, h, ih, List.append_assoc]

/-- A fold whose step appends a per-element contribution produces the
flattened contributions. -/
theorem foldl_contrib {α β : Type} (l : List α)
    (step : List β → α → List β) (H : α → List β)
    (hstep : ∀ acc x, step acc x = acc ++ H x) :
    ∀ acc, l.foldl step acc = acc ++ l.flatMap H := by
  induction l with
  | nil => intro acc; simp
  | cons a l ih =>
    intro acc
    simp [hstep, ih, List.append_assoc]

/-- The records one timing link contributes to the emitted list. -/
def linkContrib (stops : List (String × XStopData)) (fn : String)
    (sec link : Elem) : List XRecord :=
  if localName link.tag = "JourneyPatternTimingLink" then
    if truthyO (buildLinkRecord stops fn sec link).from_stop_id ||
        truthyO (buildLinkRecord stops fn sec link).to_stop_id then
      [buildLinkRecord stops fn sec link]
    else []
  else []

/-- The records one element of the scan contributes to the emitted list. -/
def secContrib (stops : List (String × XStopData)) (fn : String)
    (sec : Elem) : List XRecord :=
  if localName sec.tag = "JourneyPatternSection" then
    sec.children.flatMap (linkContrib stops fn sec)
  else []

/-- One timing-link iteration appends exactly its contribution. -/
theorem xlinkStep_contrib (stops : List (String × XStopData)) (fn : String)
    (sec : Elem) (recs : List XRecord) (link : Elem) :
    xlinkStep stops fn sec recs link = recs ++ linkContrib stops fn sec link := by
  simp only [xlinkStep, linkContrib]
  split_ifs <;> simp

/-- One section iteration appends exactly its contribution. -/
theorem xsecStep_contrib (stops : List (String × XStopData)) (fn : String)
    (records : List XRecord) (sec : Elem) :
    xsecStep stops fn records sec = records ++ secContrib stops fn sec := by
  simp only [xsecStep, secContrib]
  split_ifs with h
  · exact foldl_contrib _ _ _ (xlinkStep_contrib stops fn sec) records
  · simp

/-- `extract_route_sections` in closed form: the concatenation, in document
order, of the per-section, per-timing-link contributions. -/
theorem route_sections_eq (root : Elem) (stops : List (String × XStopData))
    (fn : String) :
    extract_route_sections_xml root stops fn =
      (iterAll root).flatMap (secContrib stops fn) := by
  rw [extract_route_sections_xml,
    foldl_contrib (iterAll root) _ _ (xsecStep_contrib stops fn) []]
  simp

/-- Membership in the emitted record list of the tag-suffix-scan
extractor. -/
theorem mem_route_sections (root : Elem) (stops : List (String × XStopData))
    (fn : String) (r : XRecord) :
    r ∈ extract_route_sections_xml root stops fn ↔
      ∃ sec ∈ iterAll root, localName sec.tag = "JourneyPatternSection" ∧
        ∃ link ∈ sec.children,
          localName link.tag = "JourneyPatternTimingLink" ∧
          r = buildLinkRecord stops fn sec link ∧
          (truthyO r.from_stop_id || truthyO r.to_stop_id) = true := by
  rw [route_sections_eq]
  simp only [List.mem_flatMap]
  constructor
  · rintro ⟨sec, hsec, hr⟩
    rw [secContrib] at hr
    by_cases h : localName sec.tag = "JourneyPatternSection"
    · rw [if_pos h] at hr
      obtain ⟨link, hlink, hr⟩ := List.mem_flatMap.1 hr
      rw [linkContrib] at hr
      by_cases hl : localName link.tag = "JourneyPatternTimingLink"
      · rw [if_pos hl] at hr
        by_cases ht : (truthyO (buildLinkRecord stops fn sec link).from_stop_id ||
            truthyO (buildLinkRecord stops fn sec link).to_stop_id) = true
        · rw [if_pos ht] at hr
          simp only [List.mem_singleton] at hr
          subst hr
          exact ⟨sec, hsec, h, link, hlink, hl, rfl, ht⟩
        · rw [if_neg ht] at hr
          simp at hr
      · rw [if_neg hl] at hr
        simp at hr
    · rw [if_neg h] at hr
      simp at hr
  · rintro ⟨sec, hsec, h, link, hlink, hlt, rfl, htruthy⟩
    refine ⟨sec, hsec, ?_⟩
    rw [secContrib, if_pos h]
    refine List.mem_flatMap.2 ⟨link, hlink, ?_⟩
    rw [linkContrib, if_pos hlt, if_pos htruthy]
    simp

/-! ## Join correctness -/

/-- The join property of a record against a stop index: whenever the
record's from/to stop id is present and resolves in the index, the
denormalized name and coordinates carry that stop's data. -/
def joinInv (stops : List (String × XStopData)) (r : XRecord) : Prop :=
  (∀ s sd, r.from_stop_id = some s → alookup stops s = some sd →
    r.from_stop_name = some (sd.stop_name.getD "") ∧
    r.from_latitude = some (sd.latitude.getD "") ∧
    r.from_longitude = some (sd.longitude.getD "")) ∧
  (∀ s sd, r.to_stop_id = some s → alookup stops s = some sd →
    r.to_stop_name = some (sd.stop_name.getD "") ∧
    r.to_latitude = some (sd.latitude.getD "") ∧
    r.to_longitude = some (sd.longitude.getD ""))

/-- Each `_extract_stop_point` child step preserves the join property. -/
theorem espStep_inv (stops : List (String × XStopData)) (isFrom : Bool)
    (r : XRecord) (c : Elem) (h : joinInv stops r) :
    joinInv stops (espStep stops isFrom r c) := by
  obtain ⟨hf, ht⟩ := h
  simp only [espStep]
  by_cases h1 : localName c.tag = "StopPointRef"
  · rw [if_pos h1]
    rcases hl : alookup stops (getTextD c) with _ | sd'
    · simp only [hl]
      cases isFrom
      · refine ⟨fun s sd hs hsd => hf s sd hs hsd, ?_⟩
        intro s sd hs hsd
        have hsid : getTextD c = s := by simpa using hs
        subst hsid
        rw [hl] at hsd
        exact Option.noConfusion hsd
      · refine ⟨?_, fun s sd hs hsd => ht s sd hs hsd⟩
        intro s sd hs hsd
        have hsid : getTextD c = s := by simpa using hs
        subst hsid
        rw [hl] at hsd
        exact Option.noConfusion hsd
    · simp only [hl]
      cases isFrom
      · refine ⟨fun s sd hs hsd => hf s sd hs hsd, ?_⟩
        intro s sd hs hsd
        have hsid : getTextD c = s := by simpa using hs
        subst hsid
        rw [hl] at hsd
        injection hsd with h2
        subst h2
        exact ⟨rfl, rfl, rfl⟩
      · refine ⟨?_, fun s sd hs hsd => ht s sd hs hsd⟩
        intro s sd hs hsd
        have hsid : getTextD c = s := by simpa using hs
        subst hsid
        rw [hl] at hsd
        injection hsd with h2
        subst h2
        exact ⟨rfl, rfl, rfl⟩
  · rw [if_neg h1]
    by_cases h2 : localName c.tag = "SequenceNumber"
    · rw [if_pos h2]
      cases isFrom
      · exact ⟨fun s sd hs hsd => hf s sd hs hsd, fun s sd hs hsd => ht s sd hs hsd⟩
      · exact ⟨fun s sd hs hsd => hf s sd hs hsd, fun s sd hs hsd => ht s sd hs hsd⟩
    · rw [if_neg h2]
      by_cases h3 : localName c.tag = "TimingStatus"
      · rw [if_pos h3]
        cases isFrom
        · exact ⟨fun s sd hs hsd => hf s sd hs hsd, fun s sd hs hsd => ht s sd hs hsd⟩
        · exact ⟨fun s sd hs hsd => hf s sd hs hsd, fun s sd hs hsd => ht s sd hs hsd⟩
      · rw [if_neg h3]
        by_cases h4 : localName c.tag = "Activity"
        · rw [if_pos h4]
          cases isFrom
          · exact ⟨fun s sd hs hsd => hf s sd hs hsd, fun s sd hs hsd => ht s sd hs hsd⟩
          · exact ⟨fun s sd hs hsd => hf s sd hs hsd, fun s sd hs hsd => ht s sd hs hsd⟩
        · rw [if_neg h4]
          exact ⟨hf, ht⟩

/-- Folding `_extract_stop_point` over any child list preserves the join
property. -/
theorem espFold_inv (stops : List (String × XStopData)) (isFrom : Bool)
    (cs : List Elem) :
    ∀ r : XRecord, joinInv stops r →
      joinInv stops (cs.foldl (espStep stops isFrom) r) := by
  induction cs with
  | nil => intro r h; exact h
  | cons c cs ih =>
    intro r h
    exact ih _ (espStep_inv stops isFrom r c h)

/-- Each timing-link child step preserves the join property. -/
theorem linkStep_inv (stops : List (String × XStopData)) (r : XRecord)
    (child : Elem) (h : joinInv stops r) :
    joinInv stops (linkStep stops r child) := by
  obtain ⟨hf, ht⟩ := h
  simp only [linkStep]
  by_cases h1 : localName child.tag = "From"
  · rw [if_pos h1]
    exact espFold_inv stops true child.children r ⟨hf, ht⟩
  · rw [if_neg h1]
    by_cases h2 : localName child.tag = "To"
    · rw [if_pos h2]
      exact espFold_inv stops false child.children r ⟨hf, ht⟩
    · rw [if_neg h2]
      by_cases h3 : localName child.tag = "RunTime"
      · rw [if_pos h3]
        exact ⟨fun s sd hs hsd => hf s sd hs hsd, fun s sd hs hsd => ht s sd hs hsd⟩
      · rw [if_neg h3]
        by_cases h4 : localName child.tag = "RouteLinkRef"
        · rw [if_pos h4]
          exact ⟨fun s sd hs hsd => hf s sd hs hsd, fun s sd hs hsd => ht s sd hs hsd⟩
        · rw [if_neg h4]
          exact ⟨hf, ht⟩

/-- Folding the timing-link child loop preserves the join property. -/
theorem linkFold_inv (stops : List (String × XStopData)) (cs : List Elem) :
    ∀ r : XRecord, joinInv stops r →
      joinInv stops (cs.foldl (linkStep stops) r) := by
  induction cs with
  | nil => intro r h; exact h
  | cons c cs ih =>
    intro r h
    exact ih _ (linkStep_inv stops r c h)

/-- Every record built for a timing link satisfies the join property. -/
theorem buildLinkRecord_inv (stops : List (String × XStopData)) (fn : String)
    (sec link : Elem) : joinInv stops (buildLinkRecord stops fn sec link) := by
  rw [buildLinkRecord]
  refine linkFold_inv stops link.children _ ⟨?_, ?_⟩
  · intro s sd hs
    exact absurd hs (by simp [initRecord])
  · intro s sd hs
    exact absurd hs (by simp [initRecord])

/-- The join fields of one targeted-path segment, by case on the index
lookup of its own stop ids. -/
theorem mkSegment_join (ns : Option String) (stops : List (String × StopRec))
    (svc : Option ServiceRec) (ops : List (String × OperRec))
    (fn sid : String) (link : Elem) :
    (∀ rec, alookup stops (mkSegment ns stops svc ops fn sid link).from_stop_id = some rec →
      (mkSegment ns stops svc ops fn sid link).from_stop_name = rec.stop_name ∧
      (mkSegment ns stops svc ops fn sid link).from_latitude = rec.latitude ∧
      (mkSegment ns stops svc ops fn sid link).from_longitude = rec.longitude) ∧
    (alookup stops (mkSegment ns stops svc ops fn sid link).from_stop_id = none →
      (mkSegment ns stops svc ops fn sid link).from_stop_name = "" ∧
      (mkSegment ns stops svc ops fn sid link).from_latitude = "" ∧
      (mkSegment ns stops svc ops fn sid link).from_longitude = "") ∧
    (∀ rec, alookup stops (mkSegment ns stops svc ops fn sid link).to_stop_id = some rec →
      (mkSegment ns stops svc ops fn sid link).to_stop_name = rec.stop_name ∧
      (mkSegment ns stops svc ops fn sid link).to_latitude = rec.latitude ∧
      (mkSegment ns stops svc ops fn sid link).to_longitude = rec.longitude) ∧
    (alookup stops (mkSegment ns stops svc ops fn sid link).to_stop_id = none →
      (mkSegment ns stops svc ops fn sid link).to_stop_name = "" ∧
      (mkSegment ns stops svc ops fn sid link).to_latitude = "" ∧
      (mkSegment ns stops svc ops fn sid link).to_longitude = "") := by
  refine ⟨?_, ?_, ?_, ?_⟩
  · intro rec hrec
    have h : alookup stops (sideStop ns (sideElem ns link "From")) = some rec := hrec
    refine ⟨?_, ?_, ?_⟩ <;>
      · show ((alookup stops (sideStop ns (sideElem ns link "From"))).map _).getD "" = _
        rw [h]
        rfl
  · intro hrec
    have h : alookup stops (sideStop ns (sideElem ns link "From")) = none := hrec
    refine ⟨?_, ?_, ?_⟩ <;>
      · show ((alookup stops (sideStop ns (sideElem ns link "From"))).map _).getD "" = _
        rw [h]
        rfl
  · intro rec hrec
    have h : alookup stops (sideStop ns (sideElem ns link "To")) = some rec := hrec
    refine ⟨?_, ?_, ?_⟩ <;>
      · show ((alookup stops (sideStop ns (sideElem ns link "To"))).map _).getD "" = _
        rw [h]
        rfl
  · intro hrec
    have h : alookup stops (sideStop ns (sideElem ns link "To")) = none := hrec
    refine ⟨?_, ?_, ?_⟩ <;>
      · show ((alookup stops (sideStop ns (sideElem ns link "To"))).map _).getD "" = _
        rw [h]
        rfl

/-- The enrichment step does not touch the join fields. -/
theorem enrich_inv (stops : List (String × XStopData)) (svc : XServiceData)
    (op : Option String) (r : XRecord) (h : joinInv stops r) :
    joinInv stops (enrich svc op r) := by
  obtain ⟨hf, ht⟩ := h
  exact ⟨fun s sd hs hsd => hf s sd hs hsd, fun s sd hs hsd => ht s sd hs hsd⟩

/-- Claim C4 (amended).  For every emitted segment, whenever the segment's
own from/to stop id resolves in the document's stop index, the
denormalized name/latitude/longitude equal that stop record's fields — in
both extractors, and no input can make the join fail.  When the id does
not resolve, the targeted-path extractor always leaves the three fields
empty; the tag-suffix-scan extractor guarantees this only when the From/To
element holds a single stop-ref child (see the counterexample for the
general case). -/
theorem C4_join_correctness :
    (∀ (ns : Option String) (stops : List (String × StopRec))
        (svc : Option ServiceRec) (ops : List (String × OperRec))
        (root : Elem) (fn : String),
      ∀ seg ∈ extract_timing_links_bus ns stops svc ops root fn,
        (∀ rec, alookup stops seg.from_stop_id = some rec →
          seg.from_stop_name = rec.stop_name ∧
          seg.from_latitude = rec.latitude ∧
          seg.from_longitude = rec.longitude) ∧
        (alookup stops seg.from_stop_id = none →
          seg.from_stop_name = "" ∧ seg.from_latitude = "" ∧
          seg.from_longitude = "") ∧
        (∀ rec, alookup stops seg.to_stop_id = some rec →
          seg.to_stop_name = rec.stop_name ∧
          seg.to_latitude = rec.latitude ∧
          seg.to_longitude = rec.longitude) ∧
        (alookup stops seg.to_stop_id = none →
          seg.to_stop_name = "" ∧ seg.to_latitude = "" ∧
          seg.to_longitude = "")) ∧
    (∀ (root : Elem) (stops : List (String × XStopData)) (fn : String),
      ∀ r ∈ extract_route_sections_xml root stops fn, joinInv stops r) ∧
    (∀ (f : XmlFile) (root : Elem), f.parsed = some root →
      ∀ r ∈ xml_file_records f, joinInv (extract_stops_xml root) r) := by
  refine ⟨?_, ?_, ?_⟩
  · intro ns stops svc ops root fn seg hseg
    obtain ⟨p, _, rfl⟩ := List.mem_map.1 hseg
    exact mkSegment_join ns stops svc ops fn p.1 p.2
  · intro root stops fn r hr
    rw [mem_route_sections] at hr
    obtain ⟨sec, _, _, link, _, _, rfl, _⟩ := hr
    exact buildLinkRecord_inv stops fn sec link
  · intro f root hparse r hr
    simp only [xml_file_records, hparse] at hr
    obtain ⟨r', hr', rfl⟩ := List.mem_map.1 hr
    rw [mem_route_sections] at hr'
    obtain ⟨sec, _, _, link, _, _, rfl, _⟩ := hr'
    exact enrich_inv _ _ _ _ (buildLinkRecord_inv _ f.name sec link)

/-- Counterexample for C4 as stated: in the tag-suffix-scan extractor, a
`From` element with two `StopPointRef` children (the first indexed, the
second not) emits a record whose final `from_stop_id` (`S2`) is absent
from the index while `from_stop_name` still carries the earlier indexed
stop's name (`Stop One`) instead of being empty. -/
theorem C4_join_counterexample :
    ∃ r, extract_route_sections_xml staleJoinRoot
        (extract_stops_xml staleJoinRoot) "f.xml" = [r] ∧
      r.from_stop_id = some "S2" ∧
      alookup (extract_stops_xml staleJoinRoot) "S2" = none ∧
      r.from_stop_name = some "Stop One" ∧
      ¬ (r.from_stop_name = some "" ∨ r.from_stop_name = none) :=
  ⟨_, rfl, rfl, rfl, rfl, by decide⟩

/-- The single segment the targeted-path extractor emits for `wRoot`. -/
def wSegBus : Segment :=
  { source_file := "one.xml", section_id := "JPS1", timing_link_id := "TL1"
    from_stop_id := "S1", from_stop_name := "Stop One"
    from_latitude := "51.0", from_longitude := "-1.0"
    from_sequence := "1", from_timing_status := "PTP", from_activity := "pickUp"
    to_stop_id := "S2", to_stop_name := "Stop Two"
    to_latitude := "51.01", to_longitude := "-1.01"
    to_sequence := "2", to_timing_status := "PTP"
    runtime_raw := "PT1M30S", runtime_seconds := 90, route_link_ref := "RL1"
    line_name := "DIAM14", operator_name := "Diamond"
    service_origin := "A", service_destination := "B", service_code := "SC1" }

/-- Witness for C4: on the concrete document `wRoot`, the emitted segment's
`from_stop_id` `S1` resolves in the stop index, and applying the theorem
yields `from_stop_name = "Stop One"`, the name of that stop record. -/
theorem C4_join_correctness_witness :
    wSegBus.from_stop_name =
      (StopRec.mk "S1" "Stop One" "-1.0" "51.0").stop_name ∧
    alookup (extract_stops_bus none wRoot []) wSegBus.from_stop_id =
      some (StopRec.mk "S1" "Stop One" "-1.0" "51.0") := by
  have hmem : wSegBus ∈ extract_timing_links_bus none
      (extract_stops_bus none wRoot []) (extract_services_bus none wRoot none)
      (extract_operators_bus none wRoot []) wRoot "one.xml" := by decide
  have h := (C4_join_correctness.1 none (extract_stops_bus none wRoot [])
    (extract_services_bus none wRoot none) (extract_operators_bus none wRoot [])
    wRoot "one.xml" wSegBus hmem).1
  exact ⟨(h (StopRec.mk "S1" "Stop One" "-1.0" "51.0") (by decide)).1, by decide⟩

/-! ## Dictionary lemmas and fold preservation -/

/-- Updating a key makes it present with the new value. -/
theorem alookup_upsert_self {α : Type} (k : String) (v : α)
    (l : List (String × α)) : alookup (upsert k v l) k = some v := by
  induction l with
  | nil => simp [upsert, alookup]
  | cons p rest ih =>
    by_cases h : p.1 = k
    · simp [upsert, h, alookup]
    · simp [upsert, h, alookup, ih]

/-- Updating one key leaves every other key's binding unchanged. -/
theorem alookup_upsert_other {α : Type} (k : String) (v : α)
    (l : List (String × α)) (k' : String) (h : k' ≠ k) :
    alookup (upsert k v l) k' = alookup l k' := by
  have hk : ¬ k = k' := fun he => h he.symm
  induction l with
  | nil => simp [upsert, alookup, hk]
  | cons p rest ih =>
    by_cases hp : p.1 = k
    · subst hp
      simp [upsert, alookup, hk]
    · simp only [upsert, hp, if_false]
      by_cases hp' : p.1 = k'
      · simp [alookup, hp']
      · simp [alookup, hp', ih]

/-- A predicate preserved by every step of a fold holds of its result. -/
theorem foldl_pred_preserve {α β : Type} (P : β → Prop) (step : β → α → β)
    (h : ∀ acc x, P acc → P (step acc x)) :
    ∀ (l : List α) (acc : β), P acc → P (l.foldl step acc) := by
  intro l
  induction l with
  | nil => intro acc hp; exact hp
  | cons a l ih => intro acc hp; exact ih _ (h acc a hp)

/-- The targeted-path stop index never holds the empty key: only truthy
stop ids are entered. -/
theorem extract_stops_bus_no_empty (ns : Option String) (root : Elem) :
    alookup (extract_stops_bus ns root []) "" = none := by
  refine foldl_pred_preserve (fun acc => alookup acc "" = none)
    (busStopStep ns) ?_ _ [] rfl
  intro acc stop hp
  simp only [busStopStep]
  by_cases hsid : safeChild ns stop "StopPointRef" ≠ ""
  · rw [if_pos hsid, alookup_upsert_other _ _ _ _ (fun he => hsid he.symm)]
    exact hp
  · rw [if_neg hsid]
    exact hp

/-- A section with one timing link holding only a from-stop, and one
timing link with no stop reference at all. -/
def dropRoot : Elem :=
  elem "TransXChange" [] none
    [elem "JourneyPatternSection" [("id", "s")] none
       [elem "JourneyPatternTimingLink" [("id", "a")] none
          [elem "From" [] none [txt "StopPointRef" "X"]],
        elem "JourneyPatternTimingLink" [("id", "b")] none
          [txt "RunTime" "PT10S"]]]

/-- Claim C5.  In the tag-suffix-scan extractor a timing link with neither
a from-stop nor a to-stop reference resolved (truthy) produces no output
record — every emitted record has at least one side resolved — while a
link with at least one side resolved is kept (the absent side's keys stay
unset, i.e. empty).  In the targeted-path extractor every visited timing
link is kept: absence of From/To leaves the corresponding fields as empty
strings (the pipeline's stop index holds no empty key, third conjunct). -/
theorem C5_drop_policy :
    (∀ (root : Elem) (stops : List (String × XStopData)) (fn : String),
      ∀ r ∈ extract_route_sections_xml root stops fn,
        (truthyO r.from_stop_id || truthyO r.to_stop_id) = true) ∧
    (∀ (root : Elem) (stops : List (String × XStopData)) (fn : String)
        (sec link : Elem), sec ∈ iterAll root →
      localName sec.tag = "JourneyPatternSection" →
      link ∈ sec.children →
      localName link.tag = "JourneyPatternTimingLink" →
      (truthyO (buildLinkRecord stops fn sec link).from_stop_id ||
        truthyO (buildLinkRecord stops fn sec link).to_stop_id) = true →
      buildLinkRecord stops fn sec link ∈
        extract_route_sections_xml root stops fn) ∧
    (∀ (ns : Option String) (root : Elem),
      alookup (extract_stops_bus ns root []) "" = none) ∧
    (∀ (ns : Option String) (stops : List (String × StopRec))
        (svc : Option ServiceRec) (ops : List (String × OperRec))
        (root : Elem) (fn : String) (p : String × Elem),
      p ∈ busLinks ns root →
        mkSegment ns stops svc ops fn p.1 p.2 ∈
          extract_timing_links_bus ns stops svc ops root fn ∧
        (sideElem ns p.2 "From" = none →
          (mkSegment ns stops svc ops fn p.1 p.2).from_stop_id = "" ∧
          (mkSegment ns stops svc ops fn p.1 p.2).from_sequence = "" ∧
          (mkSegment ns stops svc ops fn p.1 p.2).from_timing_status = "" ∧
          (mkSegment ns stops svc ops fn p.1 p.2).from_activity = "" ∧
          (alookup stops "" = none →
            (mkSegment ns stops svc ops fn p.1 p.2).from_stop_name = "" ∧
            (mkSegment ns stops svc ops fn p.1 p.2).from_latitude = "" ∧
            (mkSegment ns stops svc ops fn p.1 p.2).from_longitude = "")) ∧
        (sideElem ns p.2 "To" = none →
          (mkSegment ns stops svc ops fn p.1 p.2).to_stop_id = "" ∧
          (mkSegment ns stops svc ops fn p.1 p.2).to_sequence = "" ∧
          (mkSegment ns stops svc ops fn p.1 p.2).to_timing_status = "" ∧
          (alookup stops "" = none →
            (mkSegment ns stops svc ops fn p.1 p.2).to_stop_name = "" ∧
            (mkSegment ns stops svc ops fn p.1 p.2).to_latitude = "" ∧
            (mkSegment ns stops svc ops fn p.1 p.2).to_longitude = ""))) := by
  refine ⟨?_, ?_, extract_stops_bus_no_empty, ?_⟩
  · intro root stops fn r hr
    obtain ⟨_, _, _, _, _, _, _, ht⟩ := (mem_route_sections root stops fn r).1 hr
    exact ht
  · intro root stops fn sec link hsec hst hlink hlt ht
    exact (mem_route_sections root stops fn _).2
      ⟨sec, hsec, hst, link, hlink, hlt, rfl, ht⟩
  · intro ns stops svc ops root fn p hp
    refine ⟨List.mem_map.2 ⟨p, hp, rfl⟩, ?_, ?_⟩
    · intro hFrom
      have hid : (mkSegment ns stops svc ops fn p.1 p.2).from_stop_id = "" := by
        show sideStop ns (sideElem ns p.2 "From") = ""
        rw [hFrom]
        rfl
      refine ⟨hid, ?_, ?_, ?_, ?_⟩
      · show sideSeq (sideElem ns p.2 "From") = ""
        rw [hFrom]
        rfl
      · show sideText ns (sideElem ns p.2 "From") "TimingStatus" = ""
        rw [hFrom]
        rfl
      · show sideText ns (sideElem ns p.2 "From") "Activity" = ""
        rw [hFrom]
        rfl
      · intro hstops
        have h' : alookup stops (sideStop ns (sideElem ns p.2 "From")) = none := by
          rw [hFrom]
          exact hstops
        refine ⟨?_, ?_, ?_⟩ <;>
          · show ((alookup stops (sideStop ns (sideElem ns p.2 "From"))).map _).getD "" = ""
            rw [h']
            rfl
    · intro hTo
      have hid : (mkSegment ns stops svc ops fn p.1 p.2).to_stop_id = "" := by
        show sideStop ns (sideElem ns p.2 "To") = ""
        rw [hTo]
        rfl
      refine ⟨hid, ?_, ?_, ?_⟩
      · show sideSeq (sideElem ns p.2 "To") = ""
        rw [hTo]
        rfl
      · show sideText ns (sideElem ns p.2 "To") "TimingStatus" = ""
        rw [hTo]
        rfl
      · intro hstops
        have h' : alookup stops (sideStop ns (sideElem ns p.2 "To")) = none := by
          rw [hTo]
          exact hstops
        refine ⟨?_, ?_, ?_⟩ <;>
          · show ((alookup stops (sideStop ns (sideElem ns p.2 "To"))).map _).getD "" = ""
            rw [h']
            rfl

/-- Witness for C5: on `dropRoot` (one link with only a from-stop, one
link without stop references, empty stop index) the kept-record membership
of the theorem applies to link `a`, every emitted record has a resolved
side, and the record of link `b` is dropped: exactly one record comes
out. -/
theorem C5_drop_policy_witness :
    buildLinkRecord [] "d.xml" (elem "JourneyPatternSection" [("id", "s")] none
       [elem "JourneyPatternTimingLink" [("id", "a")] none
          [elem "From" [] none [txt "StopPointRef" "X"]],
        elem "JourneyPatternTimingLink" [("id", "b")] none
          [txt "RunTime" "PT10S"]])
      (elem "JourneyPatternTimingLink" [("id", "a")] none
        [elem "From" [] none [txt "StopPointRef" "X"]]) ∈
      extract_route_sections_xml dropRoot [] "d.xml" ∧
    (extract_route_sections_xml dropRoot [] "d.xml").length = 1 := by
  constructor
  · exact (C5_drop_policy.2.1 dropRoot [] "d.xml" _ _
      (by decide) (by decide) (by decide) (by decide) (by decide))
  · rfl

/-! ## Service extraction order -/

/-- The stripped text of an element when its local name is `t`. -/
def tagTextOf (t : String) (e : Elem) : Option String :=
  if localName e.tag = t then some (getTextD e) else none

/-- The texts of all `t`-named elements of a document, in document order. -/
def tagTexts (root : Elem) (t : String) : List String :=
  (iterAll root).filterMap (tagTextOf t)

/-- `line_name` after one service step. -/
theorem svcStep_line (sd : XServiceData) (e : Elem) :
    (svcStep sd e).line_name =
      if localName e.tag = "LineName" then some (getTextD e) else sd.line_name := by
  simp only [svcStep]
  split_ifs <;> simp_all

/-- `service_code` after one service step. -/
theorem svcStep_code (sd : XServiceData) (e : Elem) :
    (svcStep sd e).service_code =
      if localName e.tag = "ServiceCode" then some (getTextD e)
      else sd.service_code := by
  simp only [svcStep]
  split_ifs <;> simp_all

/-- `service_origin` after one service step: set only when still absent. -/
theorem svcStep_origin (sd : XServiceData) (e : Elem) :
    (svcStep sd e).service_origin =
      if localName e.tag = "Origin" ∧ sd.service_origin = none then
        some (getTextD e)
      else sd.service_origin := by
  simp only [svcStep]
  split_ifs <;> simp_all

/-- `service_destination` after one service step: set only when still
absent. -/
theorem svcStep_destination (sd : XServiceData) (e : Elem) :
    (svcStep sd e).service_destination =
      if localName e.tag = "Destination" ∧ sd.service_destination = none then
        some (getTextD e)
      else sd.service_destination := by
  simp only [svcStep]
  split_ifs <;> simp_all

/-- Over the whole scan, `line_name` is the last `LineName` text. -/
theorem svcFold_line (es : List Elem) :
    ∀ sd : XServiceData, (es.foldl svcStep sd).line_name =
      match (es.filterMap (tagTextOf "LineName")).getLast? with
      | some v => some v
      | none => sd.line_name := by
  induction es using List.reverseRecOn with
  | nil => intro sd; rfl
  | append_singleton l a ih =>
    intro sd
    rw [List.foldl_append, List.foldl_cons, List.foldl_nil, svcStep_line,
      List.filterMap_append]
    by_cases h : localName a.tag = "LineName"
    · simp [tagTextOf, h]
    · simp [tagTextOf, h, ih]

/-- Over the whole scan, `service_code` is the last `ServiceCode` text. -/
theorem svcFold_code (es : List Elem) :
    ∀ sd : XServiceData, (es.foldl svcStep sd).service_code =
      match (es.filterMap (tagTextOf "ServiceCode")).getLast? with
      | some v => some v
      | none => sd.service_code := by
  induction es using List.reverseRecOn with
  | nil => intro sd; rfl
  | append_singleton l a ih =>
    intro sd
    rw [List.foldl_append, List.foldl_cons, List.foldl_nil, svcStep_code,
      List.filterMap_append]
    by_cases h : localName a.tag = "ServiceCode"
    · simp [tagTextOf, h]
    · simp [tagTextOf, h, ih]

/-- Over the whole scan, `service_origin` is the first `Origin` text. -/
theorem svcFold_origin (es : List Elem) :
    ∀ sd : XServiceData, (es.foldl svcStep sd).service_origin =
      match sd.service_origin with
      | some v => some v
      | none => (es.filterMap (tagTextOf "Origin")).head? := by
  induction es with
  | nil =>
    intro sd
    rw [List.foldl_nil]
    rcases h : sd.service_origin with _ | v <;> simp [h]
  | cons e es ih =>
    intro sd
    rw [List.foldl_cons, ih, svcStep_origin, List.filterMap_cons]
    by_cases h : localName e.tag = "Origin"
    · rcases ho : sd.service_origin with _ | v
      · simp [tagTextOf, h, ho]
      · simp [tagTextOf, h, ho]
    · rcases ho : sd.service_origin with _ | v
      · simp [tagTextOf, h, ho]
      · simp [tagTextOf, h, ho]

/-- Over the whole scan, `service_destination` is the first `Destination`
text. -/
theorem svcFold_destination (es : List Elem) :
    ∀ sd : XServiceData, (es.foldl svcStep sd).service_destination =
      match sd.service_destination with
      | some v => some v
      | none => (es.filterMap (tagTextOf "Destination")).head? := by
  induction es with
  | nil =>
    intro sd
    rw [List.foldl_nil]
    rcases h : sd.service_destination with _ | v <;> simp [h]
  | cons e es ih =>
    intro sd
    rw [List.foldl_cons, ih, svcStep_destination, List.filterMap_cons]
    by_cases h : localName e.tag = "Destination"
    · rcases ho : sd.service_destination with _ | v
      · simp [tagTextOf, h, ho]
      · simp [tagTextOf, h, ho]
    · rcases ho : sd.service_destination with _ | v
      · simp [tagTextOf, h, ho]
      · simp [tagTextOf, h, ho]

/-- Claim C6 (amended).  In the targeted-path extractor exactly one
service record is produced per document whenever a `Service` element is
present — the first one in document order wins, later ones are ignored —
and every emitted segment carries its service_code, line_name, origin and
destination.  In the tag-suffix-scan extractor the single service
dictionary takes the FIRST `Origin` and `Destination` texts but the LAST
`LineName` and `ServiceCode` texts in document order, so later Service
elements are not wholly ignored there (see the counterexample). -/
theorem C6_service_record :
    (∀ (ns : Option String) (root : Elem) (si : Option ServiceRec)
        (svcE : Elem) (rest : List Elem),
      findall_desc root (get_tag ns "Service") = svcE :: rest →
      extract_services_bus ns root si = some (mkServiceBus ns svcE)) ∧
    (∀ (ns : Option String) (stops : List (String × StopRec))
        (svcRec : ServiceRec) (ops : List (String × OperRec))
        (root : Elem) (fn : String),
      ∀ seg ∈ extract_timing_links_bus ns stops (some svcRec) ops root fn,
        seg.service_code = svcRec.service_code ∧
        seg.line_name = svcRec.line_name ∧
        seg.service_origin = svcRec.origin ∧
        seg.service_destination = svcRec.destination) ∧
    (∀ root : Elem,
      (extract_services_xml root).service_origin = (tagTexts root "Origin").head? ∧
      (extract_services_xml root).service_destination =
        (tagTexts root "Destination").head? ∧
      (extract_services_xml root).line_name = (tagTexts root "LineName").getLast? ∧
      (extract_services_xml root).service_code =
        (tagTexts root "ServiceCode").getLast?) := by
  refine ⟨?_, ?_, ?_⟩
  · intro ns root si svcE rest h
    rw [extract_services_bus, h]
    rfl
  · intro ns stops svcRec ops root fn seg hseg
    obtain ⟨p, _, rfl⟩ := List.mem_map.1 hseg
    exact ⟨rfl, rfl, rfl, rfl⟩
  · intro root
    refine ⟨?_, ?_, ?_, ?_⟩
    · rw [extract_services_xml, svcFold_origin]
      rfl
    · rw [extract_services_xml, svcFold_destination]
      rfl
    · rw [extract_services_xml, svcFold_line, tagTexts]
      rcases h : ((iterAll root).filterMap (tagTextOf "LineName")).getLast? with _ | v
      · rfl
      · rfl
    · rw [extract_services_xml, svcFold_code, tagTexts]
      rcases h : ((iterAll root).filterMap (tagTextOf "ServiceCode")).getLast? with _ | v
      · rfl
      · rfl

/-- Counterexample for C6 as stated: in the tag-suffix-scan extractor, on a
document with two `Service` elements (first LineName `A`, second LineName
`B`), the extracted `line_name` is `B` — the later Service element is not
ignored — though the first element's LineName is `A`. -/
theorem C6_service_counterexample :
    (tagTexts twoServiceRoot "LineName").head? = some "A" ∧
    (extract_services_xml twoServiceRoot).line_name = some "B" ∧
    some "B" ≠ some "A" :=
  ⟨rfl, rfl, by decide⟩

/-- Witness for C6: on `wRoot` the first (only) `Service` element wins in
the targeted-path extractor, the emitted segment carries its line name
`DIAM14`, and the suffix-scan characterization instantiates. -/
theorem C6_service_record_witness :
    extract_services_bus none wRoot none = some (mkServiceBus none wService) ∧
    wSegBus.line_name = (mkServiceBus none wService).line_name ∧
    (mkServiceBus none wService).line_name = "DIAM14" ∧
    (extract_services_xml wRoot).line_name = (tagTexts wRoot "LineName").getLast? := by
  refine ⟨C6_service_record.1 none wRoot none wService [] rfl, ?_, rfl,
    (C6_service_record.2.2 wRoot).2.2.1⟩
  have hmem : wSegBus ∈ extract_timing_links_bus none
      (extract_stops_bus none wRoot []) (some (mkServiceBus none wService))
      (extract_operators_bus none wRoot []) wRoot "one.xml" := by decide
  exact (C6_service_record.2.1 none (extract_stops_bus none wRoot [])
    (mkServiceBus none wService) (extract_operators_bus none wRoot [])
    wRoot "one.xml" wSegBus hmem).2.1

/-! ## Stop-id resolution in the suffix-scan stop index -/

/-- The id contribution of one child of a stop element: the text of a
`StopPointRef`-style or `AtcoCode`-style child. -/
def idSourceOf (c : Elem) : Option String :=
  if localName c.tag = "StopPointRef" ∨ localName c.tag = "AtcoCode" then
    some (getTextD c)
  else none

/-- One stop-child step overwrites the id variable exactly on id-source
children. -/
theorem xstopStep_fst (acc : String × XStopData) (c : Elem) :
    (xstopStep acc c).1 =
      match idSourceOf c with
      | some v => v
      | none => acc.1 := by
  simp only [xstopStep, idSourceOf]
  split_ifs <;> rfl

/-- Over a stop element's children, the final id is the LAST id-source
child's text (even if empty), not the first non-empty one. -/
theorem xstopFold_fst (cs : List Elem) :
    ∀ acc : String × XStopData,
      (cs.foldl xstopStep acc).1 =
        match (cs.filterMap idSourceOf).getLast? with
        | some v => v
        | none => acc.1 := by
  induction cs using List.reverseRecOn with
  | nil => intro acc; rfl
  | append_singleton l a ih =>
    intro acc
    rw [List.foldl_append, List.foldl_cons, List.foldl_nil, xstopStep_fst,
      List.filterMap_append]
    rcases h : idSourceOf a with _ | v
    · simp [h, ih]
    · simp [h]

/-- A present key stays present through any dictionary update. -/
theorem alookup_upsert_keep {α : Type} (k k' : String) (v : α)
    (l : List (String × α)) (h : alookup l k ≠ none) :
    alookup (upsert k' v l) k ≠ none := by
  by_cases he : k = k'
  · subst he
    rw [alookup_upsert_self]
    exact Option.noConfusion
  · rw [alookup_upsert_other _ _ _ _ he]
    exact h

/-- The suffix-scan stop index never holds the empty key. -/
theorem extract_stops_xml_no_empty (root : Elem) :
    alookup (extract_stops_xml root) "" = none := by
  refine foldl_pred_preserve (fun acc => alookup acc "" = none)
    xstopOuter ?_ _ [] rfl
  intro acc e hp
  simp only [xstopOuter]
  by_cases ht : localName e.tag = "StopPoint" ∨ localName e.tag = "AnnotatedStopPointRef"
  · rw [if_pos ht]
    by_cases hs : (e.children.foldl xstopStep ("", xStopEmpty)).1 ≠ ""
    · rw [if_pos hs, alookup_upsert_other _ _ _ _ (fun he => hs he.symm)]
      exact hp
    · rw [if_neg hs]
      exact hp
  · rw [if_neg ht]
    exact hp

/-- A stop element with a truthy final id is entered into the index. -/
theorem extract_stops_xml_mem (root e : Elem) (he : e ∈ iterAll root)
    (ht : localName e.tag = "StopPoint" ∨ localName e.tag = "AnnotatedStopPointRef")
    (hid : (e.children.foldl xstopStep ("", xStopEmpty)).1 ≠ "") :
    alookup (extract_stops_xml root)
      (e.children.foldl xstopStep ("", xStopEmpty)).1 ≠ none := by
  obtain ⟨l1, l2, hsplit⟩ := List.append_of_mem he
  rw [extract_stops_xml, hsplit, List.foldl_append, List.foldl_cons]
  refine foldl_pred_preserve
    (fun acc => alookup acc (e.children.foldl xstopStep ("", xStopEmpty)).1 ≠ none)
    xstopOuter ?_ l2 _ ?_
  · intro acc x hp
    simp only [xstopOuter]
    by_cases htx : localName x.tag = "StopPoint" ∨ localName x.tag = "AnnotatedStopPointRef"
    · rw [if_pos htx]
      by_cases hs : (x.children.foldl xstopStep ("", xStopEmpty)).1 ≠ ""
      · rw [if_pos hs]
        exact alookup_upsert_keep _ _ _ _ hp
      · rw [if_neg hs]
        exact hp
    · rw [if_neg htx]
      exact hp
  · simp only [xstopOuter, if_pos ht, if_pos hid]
    rw [alookup_upsert_self]
    exact Option.noConfusion

/-- Claim C7 (amended).  Each stop's id is taken from `StopPointRef`-style
or `AtcoCode`-style child elements, but when several id sources are
present the LAST one in child order wins — even when its text is empty,
overwriting an earlier non-empty value — not the first non-empty one; only
stops whose final resolved id is non-empty are entered into the index
(the empty key never appears), and every stop element with a non-empty
final id is entered. -/
theorem C7_stop_index :
    (∀ (cs : List Elem) (acc : String × XStopData),
      (cs.foldl xstopStep acc).1 =
        match (cs.filterMap idSourceOf).getLast? with
        | some v => v
        | none => acc.1) ∧
    (∀ root : Elem, alookup (extract_stops_xml root) "" = none) ∧
    (∀ root e : Elem, e ∈ iterAll root →
      (localName e.tag = "StopPoint" ∨ localName e.tag = "AnnotatedStopPointRef") →
      (e.children.foldl xstopStep ("", xStopEmpty)).1 ≠ "" →
      alookup (extract_stops_xml root)
        (e.children.foldl xstopStep ("", xStopEmpty)).1 ≠ none) :=
  ⟨xstopFold_fst, extract_stops_xml_no_empty, extract_stops_xml_mem⟩

/-- Counterexample for C7 as stated: a stop with `StopPointRef` text `S1`
followed by `AtcoCode` text `A1` — the first non-empty id source is `S1`,
but the index holds the stop under `A1` and `S1` is absent. -/
theorem C7_stop_index_counterexample :
    ((elem "StopPoint" [] none [txt "StopPointRef" "S1", txt "AtcoCode" "A1",
        txt "CommonName" "Dual"]).children.filterMap idSourceOf).head? = some "S1" ∧
    alookup (extract_stops_xml dualIdRoot) "S1" = none ∧
    alookup (extract_stops_xml dualIdRoot) "A1" =
      some { stop_id := some "A1", stop_name := some "Dual", locality := none,
             latitude := none, longitude := none } :=
  ⟨rfl, rfl, rfl⟩

/-- Witness for C7: on the dual-id stop, the theorem's characterization
gives the final id `A1` (the last id source), and that id is entered in
the index. -/
theorem C7_stop_index_witness :
    ((elem "StopPoint" [] none [txt "StopPointRef" "S1", txt "AtcoCode" "A1",
        txt "CommonName" "Dual"]).children.foldl xstopStep ("", xStopEmpty)).1 = "A1" ∧
    alookup (extract_stops_xml dualIdRoot) "A1" ≠ none := by
  constructor
  · rw [C7_stop_index.1]
    rfl
  · exact C7_stop_index.2.2 dualIdRoot
      (elem "StopPoint" [] none [txt "StopPointRef" "S1", txt "AtcoCode" "A1",
        txt "CommonName" "Dual"]) (by decide) (by decide) (by decide)

/-! ## The quality report -/

/-- Looking up a key of a key-indexed map of a list containing it. -/
theorem alookup_map_self {α : Type} (ks : List String) (g : String → α)
    (f : String) (hf : f ∈ ks) :
    alookup (ks.map (fun k => (k, g k))) f = some (g f) := by
  induction ks with
  | nil => simp at hf
  | cons k ks ih =>
    rw [List.map_cons]
    by_cases h : k = f
    · subst h
      simp [alookup]
    · rw [List.mem_cons] at hf
      rcases hf with rfl | hf
      · exact absurd rfl h
      · simp [alookup, h, ih hf]

/-- Claim C8 (amended).  On a nonempty aggregate, the quality report has
one entry per key field holding the count of segments where that field is
populated (truthy: nonempty string, or nonzero decoded runtime — zero
being the permissive parser's no-value sentinel) and that count as a
percentage of the total, to two decimal places (stored in hundredths of a
percent).  An empty aggregate yields the EMPTY report — defined, not a
failure, but with no per-field entries (see the counterexample). -/
theorem C8_quality :
    (∀ segs : List Segment, segs ≠ [] → ∀ f ∈ key_fields,
      alookup (calculate_data_quality segs) f =
        some (segs.countP (fun seg => fieldTruthy seg f),
          roundHalfEven ((segs.countP (fun seg => fieldTruthy seg f)) * 10000)
            segs.length)) ∧
    calculate_data_quality [] = [] := by
  refine ⟨?_, rfl⟩
  intro segs hne f hf
  have hz : segs.isEmpty = false := by
    cases segs with
    | nil => exact absurd rfl hne
    | cons a l => rfl
  simp only [calculate_data_quality, hz, Bool.false_eq_true, if_false]
  exact alookup_map_self key_fields _ f hf

/-- Counterexample for C8 as stated: the empty segment list yields the
empty report, so no key field has a (0, 0) entry — the lookup of
`from_stop_id` (a key field) is `none`, not `some (0, 0)`. -/
theorem C8_quality_counterexample :
    calculate_data_quality [] = [] ∧
    alookup (calculate_data_quality []) "from_stop_id" = none ∧
    "from_stop_id" ∈ key_fields :=
  ⟨rfl, rfl, by decide⟩

/-- Witness for C8: ten segments with `line_name` populated in exactly 7
report populated = 7 and completeness 70.00 percent (7000 hundredths). -/
theorem C8_quality_witness :
    alookup (calculate_data_quality tenSegs) "line_name" =
      some (tenSegs.countP (fun seg => fieldTruthy seg "line_name"),
        roundHalfEven ((tenSegs.countP (fun seg => fieldTruthy seg "line_name")) * 10000)
          tenSegs.length) ∧
    tenSegs.countP (fun seg => fieldTruthy seg "line_name") = 7 ∧
    tenSegs.length = 10 ∧
    roundHalfEven (7 * 10000) 10 = 7000 :=
  ⟨C8_quality.1 tenSegs (by decide) "line_name" (by decide),
    by decide, by decide, by decide⟩
